import Mathlib

/-!
Verification of the ERD backend's normalization, patch-operations, concurrency
and SQL-compilation core.

The TypeScript sources are shallowly embedded:
* zod schemas (`src/schemas/erd-ai.ts`, `src/schemas/diagram.schema.ts`) become
  `Except`-valued parser functions over `Option`-typed raw records;
* `normalizeErd` is the composition of the loose parse, edge/node repair and the
  strict re-validation, exactly as in the source;
* `applyOpsInMemory` (`src/services/diagrams/ops.ts`) becomes explicit state
  passing over a cloned snapshot (a deep clone of a pure value is the value);
* `erdToSql` (`src/utils/sql/erdToSql.ts`) is embedded with a dialect renderer
  record; the concrete renderer is modelled from the spec because the
  `dialects.ts` implementations are not part of the analysed sources;
* the Mongo conditional update used by `updateDiagram`
  (`src/controllers/diagram.controller.ts`) is modelled from the spec's
  persistence interface (`conditionalUpdate`), as the database itself is an
  external collaborator.

JavaScript strings are Lean `String`s; `String.prototype.trim` is modelled by
`jsTrim` below (whitespace via `Char.isWhitespace`); JS objects keyed by
strings (`Object.fromEntries`, `Map`) are insertion-ordered association lists
with last-write-wins update semantics (`jsObjInsert`).
-/

namespace Autodia

/- ================= JS string primitives ================= -/

/-- Whitespace predicate used by the `jsTrim` model of `String.prototype.trim`. -/
def wsp (c : Char) : Bool := c.isWhitespace

/-- Trim on the character list: drop leading and trailing whitespace. -/
def trimList (l : List Char) : List Char :=
  ((l.dropWhile wsp).reverse.dropWhile wsp).reverse

/-- Model of JavaScript `String.prototype.trim` (also used for zod `.trim()`). -/
def jsTrim (s : String) : String := ⟨trimList s.data⟩

/-- Character-level trimmedness: no leading and no trailing whitespace. -/
def trimmedL (l : List Char) : Prop :=
  (∀ c, l.head? = some c → wsp c = false) ∧
    (∀ c, l.getLast? = some c → wsp c = false)

/-- `s` ends with `suf` (exact, case-sensitive) — model of an anchored regex match. -/
def strEndsWith (s suf : String) : Bool := decide (suf.data <:+ s.data)

/-- Drop the last `n` characters of `s`. -/
def strDropRight (s : String) (n : Nat) : String :=
  ⟨s.data.take (s.data.length - n)⟩

/-- The `h.replace` call of `stripSide`/`forceSide` in `src/schemas/erd-ai.ts`
(anchored regex, dash then `left` or `right`, at end of string) —
case-sensitive removal of one trailing side marker. -/
def sideStrip (s : String) : String :=
  if strEndsWith s "-left" then strDropRight s 5
  else if strEndsWith s "-right" then strDropRight s 6
  else s

/-- `stripSide` from `src/schemas/erd-ai.ts`: strip a trailing side marker
when the handle is truthy, `undefined` otherwise.
The empty string is falsy in JS, hence maps to `none`. -/
def stripSide (h : Option String) : Option String :=
  match h with
  | none => none
  | some s => if s = "" then none else some (sideStrip s)

/-- `forceSide` from `src/schemas/erd-ai.ts`:
strips any existing side marker and appends the requested side; a falsy handle
(`undefined` or `""`) is returned unchanged. -/
def forceSide (h : Option String) (side : String) : Option String :=
  match h with
  | none => none
  | some s => if s = "" then some s else some (sideStrip s ++ "-" ++ side)

/- ================= JS object / Map primitives ================= -/

/-- JS object/Map `set`: update the value at the first occurrence of the key,
else append the binding at the end (insertion order preserved). -/
def jsObjInsert {α : Type} : List (String × α) → String → α → List (String × α)
  | [], k, v => [(k, v)]
  | (k', v') :: rest, k, v =>
      if k' = k then (k', v) :: rest else (k', v') :: jsObjInsert rest k v

/-- `Object.fromEntries` / `new Map(entries)`: fold the entry list with `set`. -/
def jsObjFromEntries {α : Type} (l : List (String × α)) : List (String × α) :=
  l.foldl (fun m kv => jsObjInsert m kv.1 kv.2) []

/-- JS object/Map lookup. -/
def jsObjLookup {α : Type} (m : List (String × α)) (k : String) : Option α :=
  (m.find? (fun p => p.1 = k)).map (·.2)

/-- JS `Map.delete`: remove the binding for `k`, keeping everything else. -/
def jsObjDelete {α : Type} (m : List (String × α)) (k : String) : List (String × α) :=
  m.filter (fun p => ¬ (p.1 = k))

/- ================= enums (diagram.schema.ts) ================= -/

/-- `"PK" | "FK"` — the key union of the strict field schema. -/
inductive FieldKey | PK | FK
deriving DecidableEq, Repr

/-- `MarkerStartEnum` from `src/schemas/diagram.schema.ts`. -/
inductive MarkerStart
  | oneStart | manyStart | zeroStart | zeroToOneStart | zeroToManyStart
deriving DecidableEq, Repr

/-- `MarkerEndEnum` from `src/schemas/diagram.schema.ts`. -/
inductive MarkerEnd
  | oneEnd | manyEnd | zeroEnd | zeroToOneEnd | zeroToManyEnd
deriving DecidableEq, Repr

/-- The string spelled by each `MarkerStartEnum` member. -/
def markerStartStr : MarkerStart → String
  | .oneStart => "one-start"
  | .manyStart => "many-start"
  | .zeroStart => "zero-start"
  | .zeroToOneStart => "zero-to-one-start"
  | .zeroToManyStart => "zero-to-many-start"

/-- The string spelled by each `MarkerEndEnum` member. -/
def markerEndStr : MarkerEnd → String
  | .oneEnd => "one-end"
  | .manyEnd => "many-end"
  | .zeroEnd => "zero-end"
  | .zeroToOneEnd => "zero-to-one-end"
  | .zeroToManyEnd => "zero-to-many-end"

/-- zod enum parse for `MarkerStartEnum`. -/
def parseMarkerStart (s : String) : Option MarkerStart :=
  if s = "one-start" then some .oneStart
  else if s = "many-start" then some .manyStart
  else if s = "zero-start" then some .zeroStart
  else if s = "zero-to-one-start" then some .zeroToOneStart
  else if s = "zero-to-many-start" then some .zeroToManyStart
  else none

/-- zod enum parse for `MarkerEndEnum`. -/
def parseMarkerEnd (s : String) : Option MarkerEnd :=
  if s = "one-end" then some .oneEnd
  else if s = "many-end" then some .manyEnd
  else if s = "zero-end" then some .zeroEnd
  else if s = "zero-to-one-end" then some .zeroToOneEnd
  else if s = "zero-to-many-end" then some .zeroToManyEnd
  else none

/-- The string spelled by a strict field key (`"PK" | "FK"`). -/
def fieldKeyStr : FieldKey → String
  | .PK => "PK"
  | .FK => "FK"

/- ================= raw (untyped JSON-ish) input ================= -/

/-- An incoming field object: every property may be absent, exactly the
properties `ZSchemaFieldLoose` inspects (the dropped `default` carries no
information downstream and is omitted). -/
structure RawField where
  id : Option String
  title : Option String
  type' : Option String
  key : Option String
  nullable : Option Bool
  note : Option String
deriving DecidableEq, Repr

/-- `position` object (JS numbers; only passed through, never computed with). -/
structure RawPosition where
  x : Int
  y : Int
deriving DecidableEq, Repr

/-- An incoming `node.data` object. -/
structure RawNodeData where
  label : Option String
  schema : Option (List RawField)
deriving DecidableEq, Repr

/-- An incoming node object (shape inspected by `ZNodeLoose`). -/
structure RawNode where
  id : Option String
  type' : Option String
  position : Option RawPosition
  data : Option RawNodeData
deriving DecidableEq, Repr

/-- An incoming edge object (shape inspected by `ZEdgeLoose`). -/
structure RawEdge where
  id : Option String
  source : Option String
  target : Option String
  sourceHandle : Option String
  targetHandle : Option String
  type' : Option String
  markerStart : Option String
  markerEnd : Option String
  data : Option (List (String × String))
deriving DecidableEq, Repr

/-- The `unknown` argument of `normalizeErd`: either a non-object root
(rejected by `ZErdLoose.parse`) or an object whose `nodes`/`edges` arrays may
be absent. -/
inductive RawInput
  | notObject
  | obj (nodes : Option (List RawNode)) (edges : Option (List RawEdge))
deriving DecidableEq, Repr

/- ================= loose (parsed) shapes ================= -/

/-- Output of `ZSchemaFieldLoose`. -/
structure LooseField where
  id : String
  title : String
  type' : String
  key : Option FieldKey
  nullable : Option Bool
  note : Option String
deriving DecidableEq, Repr

/-- Output of the loose `node.data` schema. -/
structure LooseNodeData where
  label : String
  schema : List LooseField
deriving DecidableEq, Repr

/-- Output of `ZNodeLoose` (node `type` is the checked literal
`"databaseSchema"` and is not stored). -/
structure LooseNode where
  id : String
  position : RawPosition
  data : LooseNodeData
deriving DecidableEq, Repr

/-- Output of `ZEdgeLoose` (`type'` is `some ()` iff the input carried the
literal `"superCurvyEdge"`). -/
structure LooseEdge where
  id : String
  source : String
  target : String
  sourceHandle : Option String
  targetHandle : Option String
  type' : Option Unit
  markerStart : Option MarkerStart
  markerEnd : Option MarkerEnd
  data : Option (List (String × String))
deriving DecidableEq, Repr

/-- Output of `ZErdLoose`. -/
structure LooseErd where
  nodes : List LooseNode
  edges : List LooseEdge
deriving DecidableEq, Repr

/- ================= strict shapes ================= -/

/-- Output of `ZFieldStrict`. -/
structure StrictField where
  id : String
  title : String
  type' : String
  key : Option FieldKey
deriving DecidableEq, Repr

/-- `data` of a strict node. -/
structure StrictNodeData where
  label : String
  schema : List StrictField
deriving DecidableEq, Repr

/-- Output of `ZNodeStrict` (node `type` is the literal `"databaseSchema"`). -/
structure StrictNode where
  id : String
  position : RawPosition
  data : StrictNodeData
deriving DecidableEq, Repr

/-- Output of `DiagramEdgeAPI` (edge `type` is the literal `"superCurvyEdge"`;
`markerStart`/`markerEnd` are required). -/
structure StrictEdge where
  id : String
  source : String
  target : String
  sourceHandle : Option String
  targetHandle : Option String
  markerStart : MarkerStart
  markerEnd : MarkerEnd
  data : List (String × String)
deriving DecidableEq, Repr

/-- Output of `ZErdStrict`. -/
structure StrictErd where
  nodes : List StrictNode
  edges : List StrictEdge
deriving DecidableEq, Repr

/- ================= zod primitive parsers ================= -/

/-- `z.string().min(1).trim()`: required, length ≥ 1 checked before trimming,
then trimmed. -/
def zReqString (s : Option String) : Except String String :=
  match s with
  | none => .error "required"
  | some v => if v = "" then .error "too_small" else .ok (jsTrim v)

/-- `z.string().trim().optional()`: absent passes through, present is trimmed. -/
def zOptTrimString (s : Option String) : Except String (Option String) :=
  match s with
  | none => .ok none
  | some v => .ok (some (jsTrim v))

/-- The `key` transform of `ZSchemaFieldLoose`: keep only `"PK"`/`"FK"`,
anything else becomes `undefined`. -/
def zKeyLoose (k : Option String) : Except String (Option FieldKey) :=
  match k with
  | none => .ok none
  | some s =>
      .ok (if s = "PK" then some .PK else if s = "FK" then some .FK else none)

/-- `z.literal(lit).optional()` on an optional string property. -/
def zOptLiteral (lit : String) (s : Option String) : Except String (Option Unit) :=
  match s with
  | none => .ok none
  | some v => if v = lit then .ok (some ()) else .error "literal"

/-- `MarkerStartEnum.optional()`. -/
def zOptMarkerStart (s : Option String) : Except String (Option MarkerStart) :=
  match s with
  | none => .ok none
  | some v =>
      match parseMarkerStart v with
      | some m => .ok (some m)
      | none => .error "enum"

/-- `MarkerEndEnum.optional()`. -/
def zOptMarkerEnd (s : Option String) : Except String (Option MarkerEnd) :=
  match s with
  | none => .ok none
  | some v =>
      match parseMarkerEnd v with
      | some m => .ok (some m)
      | none => .error "enum"

/-- Sequential, first-error array traversal: the behaviour of mapping a
throwing function over a JS array (and of zod array parsing up to which issue
is reported). -/
def mapE {α β : Type} (f : α → Except String β) : List α → Except String (List β)
  | [] => .ok []
  | a :: l => do
      let b ← f a
      let l' ← mapE f l
      .ok (b :: l')

/- ================= loose parsing (ZErdLoose.parse) ================= -/

/-- `ZSchemaFieldLoose.parse`. -/
def parseLooseField (f : RawField) : Except String LooseField := do
  let id ← zReqString f.id
  let title ← zReqString f.title
  let ty ← zReqString f.type'
  let key ← zKeyLoose f.key
  let note ← zOptTrimString f.note
  .ok { id := id, title := title, type' := ty, key := key,
        nullable := f.nullable, note := note }

/-- `ZNodeLoose.parse`: `position` defaults to `{0,0}`, `data` defaults to
`{label:"Table", schema:[]}`, `schema` defaults to `[]`. -/
def parseLooseNode (n : RawNode) : Except String LooseNode := do
  let id ← zReqString n.id
  let _ ← (match n.type' with
    | some v => if v = "databaseSchema" then Except.ok () else Except.error "literal"
    | none => Except.error "literal")
  let data ← (match n.data with
    | none => Except.ok { label := "Table", schema := [] : LooseNodeData }
    | some d => do
        let label ← zReqString d.label
        let schema ← mapE parseLooseField (d.schema.getD [])
        Except.ok { label := label, schema := schema : LooseNodeData })
  .ok { id := id, position := n.position.getD { x := 0, y := 0 }, data := data }

/-- `ZEdgeLoose.parse`. -/
def parseLooseEdge (e : RawEdge) : Except String LooseEdge := do
  let id ← zReqString e.id
  let source ← zReqString e.source
  let target ← zReqString e.target
  let sh ← zOptTrimString e.sourceHandle
  let th ← zOptTrimString e.targetHandle
  let ty ← zOptLiteral "superCurvyEdge" e.type'
  let ms ← zOptMarkerStart e.markerStart
  let me ← zOptMarkerEnd e.markerEnd
  .ok { id := id, source := source, target := target,
        sourceHandle := sh, targetHandle := th, type' := ty,
        markerStart := ms, markerEnd := me, data := e.data }

/-- `ZErdLoose.parse`: non-object roots are rejected; missing `nodes`/`edges`
arrays default to `[]`. -/
def parseLooseErd (i : RawInput) : Except String LooseErd :=
  match i with
  | .notObject => .error "not_object"
  | .obj ns es => do
      let nodes ← mapE parseLooseNode (ns.getD [])
      let edges ← mapE parseLooseEdge (es.getD [])
      .ok { nodes := nodes, edges := edges }

/- ================= table index + cardinality inference ================= -/

/-- One entry of the `tableIndex` built inside `normalizeErd`: the field
object keyed by id, plus the PK and FK id sets. -/
structure TableInfo where
  fields : List (String × LooseField)
  pk : List String
  fk : List String
deriving DecidableEq, Repr

/-- The per-node `{fields, pk, fk}` record of `tableIndex`. -/
def buildTableInfo (n : LooseNode) : TableInfo :=
  let fields := jsObjFromEntries (n.data.schema.map (fun f => (f.id, f)))
  { fields := fields
    pk := ((fields.map (·.2)).filter (fun f => f.key = some .PK)).map (·.id)
    fk := ((fields.map (·.2)).filter (fun f => f.key = some .FK)).map (·.id) }

/-- `tableIndex` from `normalizeErd`. -/
def buildTableIndex (nodes : List LooseNode) : List (String × TableInfo) :=
  jsObjFromEntries (nodes.map (fun n => (n.id, buildTableInfo n)))

/-- `inferMarkerEnd` from `src/schemas/erd-ai.ts`: infer an edge's end marker
from the target field's key role and nullability; `many-end` when the target
node or field cannot be resolved (an empty field id is falsy in JS). -/
def inferMarkerEnd (idx : List (String × TableInfo)) (targetId : String)
    (targetHandle : Option String) : MarkerEnd :=
  match jsObjLookup idx targetId with
  | none => .manyEnd
  | some t =>
      let fid := stripSide targetHandle
      let field := match fid with
        | none => none
        | some f => if f = "" then none else jsObjLookup t.fields f
      match field with
      | none => .manyEnd
      | some field =>
          let isPK := t.pk.contains field.id
          let isFK := t.fk.contains field.id
          let nullable := field.nullable = some true
          if isFK then (if nullable then .zeroToManyEnd else .manyEnd)
          else if isPK then (if nullable then .zeroToOneEnd else .oneEnd)
          else (if nullable then .zeroToManyEnd else .manyEnd)

/-- The target-field lookup performed by `inferMarkerEnd` (node by target id,
then field by the side-stripped handle; an empty field id is falsy). -/
def lookupTargetField (idx : List (String × TableInfo)) (targetId : String)
    (targetHandle : Option String) : Option LooseField :=
  match jsObjLookup idx targetId with
  | none => none
  | some t =>
      match stripSide targetHandle with
      | none => none
      | some f => if f = "" then none else jsObjLookup t.fields f

/- ================= strict parsing ================= -/

/-- The object literal handed to `DiagramEdgeAPI.parse` inside `normalizeErd`
(`type` is always the literal, markers always present, `data` always an
object there). -/
structure EdgeCandidate where
  id : String
  source : String
  target : String
  sourceHandle : Option String
  targetHandle : Option String
  markerStart : MarkerStart
  markerEnd : MarkerEnd
  data : List (String × String)
deriving DecidableEq, Repr

/-- `DiagramEdgeAPI.parse` on such a candidate: required trimmed id/source/
target, optional trimmed handles; markers/type/data already well-typed. -/
def parseStrictEdge (e : EdgeCandidate) : Except String StrictEdge := do
  let id ← zReqString (some e.id)
  let source ← zReqString (some e.source)
  let target ← zReqString (some e.target)
  let sh ← zOptTrimString e.sourceHandle
  let th ← zOptTrimString e.targetHandle
  .ok { id := id, source := source, target := target,
        sourceHandle := sh, targetHandle := th,
        markerStart := e.markerStart, markerEnd := e.markerEnd, data := e.data }

/-- The object literal handed to `ZNodeStrict.parse` inside `normalizeErd`. -/
structure NodeCandidate where
  id : String
  position : RawPosition
  label : String
  schema : List StrictField
deriving DecidableEq, Repr

/-- `ZFieldStrict.parse` on a field of such a candidate. -/
def parseStrictField (f : StrictField) : Except String StrictField := do
  let id ← zReqString (some f.id)
  let title ← zReqString (some f.title)
  let ty ← zReqString (some f.type')
  .ok { id := id, title := title, type' := ty, key := f.key }

/-- `ZNodeStrict.parse` on such a candidate. -/
def parseStrictNode (c : NodeCandidate) : Except String StrictNode := do
  let id ← zReqString (some c.id)
  let label ← zReqString (some c.label)
  let schema ← mapE parseStrictField c.schema
  .ok { id := id, position := c.position,
        data := { label := label, schema := schema } }

/-- Re-reading a strict node as a candidate (the final `ZErdStrict.parse`). -/
def nodeToCandidate (n : StrictNode) : NodeCandidate :=
  { id := n.id, position := n.position, label := n.data.label,
    schema := n.data.schema }

/-- Re-reading a strict edge as a candidate (the final `ZErdStrict.parse`). -/
def edgeToCandidate (e : StrictEdge) : EdgeCandidate :=
  { id := e.id, source := e.source, target := e.target,
    sourceHandle := e.sourceHandle, targetHandle := e.targetHandle,
    markerStart := e.markerStart, markerEnd := e.markerEnd, data := e.data }

/- ================= normalizeErd ================= -/

/-- The per-edge repair of `normalizeErd`: force handle sides, default
`type`/`markerStart`/`data`, infer `markerEnd` when absent, then re-validate
with `DiagramEdgeAPI.parse`. -/
def normalizeEdge (idx : List (String × TableInfo)) (e : LooseEdge) :
    Except String StrictEdge :=
  parseStrictEdge
    { id := e.id, source := e.source, target := e.target
      sourceHandle := forceSide e.sourceHandle "right"
      targetHandle := forceSide e.targetHandle "left"
      markerStart := e.markerStart.getD .oneStart
      markerEnd := e.markerEnd.getD (inferMarkerEnd idx e.target e.targetHandle)
      data := e.data.getD [] }

/-- The field-cleaning lambda of `normalizeErd`'s node mapping: keep
`{id, title, type}` and a `key` only when it is `"PK"`/`"FK"`. -/
def toStrictField (f : LooseField) : StrictField :=
  { id := f.id, title := f.title, type' := f.type'
    key := match f.key with
      | some .PK => some .PK
      | some .FK => some .FK
      | _ => none }

/-- The per-node repair of `normalizeErd`: keep the parsed position/label and
clean each field down to `{id, title, type, key}`, then re-validate with
`ZNodeStrict.parse`. -/
def normalizeNode (n : LooseNode) : Except String StrictNode :=
  parseStrictNode
    { id := n.id, position := n.position, label := n.data.label
      schema := n.data.schema.map toStrictField }

/-- The final `ZErdStrict.parse {nodes, edges}` of `normalizeErd`. -/
def parseStrictErd (nodes : List StrictNode) (edges : List StrictEdge) :
    Except String StrictErd := do
  let ns ← mapE (fun n => parseStrictNode (nodeToCandidate n)) nodes
  let es ← mapE (fun e => parseStrictEdge (edgeToCandidate e)) edges
  .ok { nodes := ns, edges := es }

/-- `normalizeErd` from `src/schemas/erd-ai.ts`: loose parse, build the table
index, repair/validate edges, repair/validate nodes, final strict parse. -/
def normalizeErd (input : RawInput) : Except String StrictErd := do
  let loose ← parseLooseErd input
  let idx := buildTableIndex loose.nodes
  let edges ← mapE (normalizeEdge idx) loose.edges
  let nodes ← mapE normalizeNode loose.nodes
  parseStrictErd nodes edges

/- ================= AI-service field cleaning ================= -/

/-- The per-field cleaning lambda inside `cleanAndValidateDiagramData`
(`src/services/ai/index.ts`): a field missing (or falsy) `id`, `title` or
`type` gets the synthetic placeholders `field_<nodeIdx>_<fieldIdx>`,
`Field_<fieldIdx+1>` and `VARCHAR(255)`; any `key` other than `"PK"`/`"FK"`
becomes `undefined`. This runs before `ZErdLoose`/`normalizeErd`. -/
def cleanSchemaField (nodeIndex fieldIndex : Nat) (f : RawField) : RawField :=
  { id :=
      some (match f.id with
        | some s => if s = "" then "field_" ++ toString nodeIndex ++ "_" ++ toString fieldIndex else s
        | none => "field_" ++ toString nodeIndex ++ "_" ++ toString fieldIndex)
    title :=
      some (match f.title with
        | some s => if s = "" then "Field_" ++ toString (fieldIndex + 1) else s
        | none => "Field_" ++ toString (fieldIndex + 1))
    type' :=
      some (match f.type' with
        | some s => if s = "" then "VARCHAR(255)" else s
        | none => "VARCHAR(255)")
    key := match f.key with
      | some "PK" => some "PK"
      | some "FK" => some "FK"
      | _ => none
    nullable := f.nullable
    note := f.note }

/- ================= patch-operations engine (ops.ts) ================= -/

/-- `CanonicalKey` from `src/services/diagrams/ops.ts`. -/
inductive CanonicalKey | NONE | PK | FK | UNIQUE
deriving DecidableEq, Repr

/-- `toCanonicalKey` from `src/services/diagrams/ops.ts`: uppercase the raw
key (absent means `"NONE"`) and map it through `KEY_MAP`, defaulting to
`NONE`. -/
def toCanonicalKey (k : Option String) : CanonicalKey :=
  let up := (k.getD "NONE").toUpper
  if up = "NONE" then .NONE
  else if up = "PRIMARY" then .PK
  else if up = "PK" then .PK
  else if up = "FOREIGN" then .FK
  else if up = "FK" then .FK
  else if up = "UNIQUE" then .UNIQUE
  else .NONE

/-- A stored field as the ops engine sees it (`add_field` pushes exactly this
shape; `default: null` is `dflt := none`). -/
structure OField where
  id : String
  title : String
  type' : String
  key : CanonicalKey
  nullable : Bool
  dflt : Option String
deriving DecidableEq, Repr

/-- `node.data` as the ops engine sees it. A JS `data` object whose `schema`
property is missing behaves identically to `schema: []` for every ops-engine
path (`getSchema` backfills it), so the backfilled form is stored. -/
structure ONodeData where
  label : String
  schema : List OField
deriving DecidableEq, Repr

/-- A stored node as the ops engine sees it (`data` may be absent in storage
form). -/
structure ONode where
  id : String
  data : Option ONodeData
deriving DecidableEq, Repr

/-- A stored edge as the ops engine sees it. -/
structure OEdge where
  id : String
  source : String
  target : String
  sourceHandle : Option String
  targetHandle : Option String
deriving DecidableEq, Repr

/-- The `{nodes, edges}` snapshot the ops engine works on. -/
structure OGraph where
  nodes : List ONode
  edges : List OEdge
deriving DecidableEq, Repr

/-- The `Op` union of `src/services/diagrams/ops.ts`. -/
inductive Op
  | add_field (tableId id title type' : String) (key : Option String)
  | rename_table (oldId newId : String) (newLabel : Option String)
  | delete_field (tableId fieldId : String)
deriving DecidableEq, Repr

/-- The case-insensitive anchored regex of `removeEdgesTouchingField` and
`rewriteHandlesForFieldRename`: the handle equals `<fieldId>-left` or
`<fieldId>-right` up to case. -/
def handleMatchesField (fieldId h : String) : Bool :=
  h.toLower = (fieldId ++ "-left").toLower ∨ h.toLower = (fieldId ++ "-right").toLower

/-- `removeEdgesTouchingField` from `src/services/diagrams/ops.ts`: drop every
edge whose source or target handle names the deleted field (absent handles
test against `""`). -/
def removeEdgesTouchingField (edges : List OEdge) (fieldId : String) : List OEdge :=
  edges.filter (fun e =>
    ¬ (handleMatchesField fieldId (e.sourceHandle.getD "")
       ∨ handleMatchesField fieldId (e.targetHandle.getD "")))

/-- `rewriteEdgesOnTableRename`: update `source`/`target` references in place. -/
def rewriteEdgesOnTableRename (edges : List OEdge) (oldId newId : String) :
    List OEdge :=
  edges.map (fun e =>
    { e with
      source := if e.source = oldId then newId else e.source
      target := if e.target = oldId then newId else e.target })

/-- `getSchema`'s backfill: `t.data ||= {label: t.id, schema: []}` (and the
inner `schema ||= []`, already implied by the typed `ONodeData`). -/
def ensureData (t : ONode) : ONode :=
  match t.data with
  | none => { t with data := some { label := t.id, schema := [] } }
  | some _ => t

/-- The schema list after `getSchema`'s backfill. -/
def nodeSchema (t : ONode) : List OField :=
  match (ensureData t).data with
  | some d => d.schema
  | none => []

/-- The mutable state of the ops loop: the `byId` map (whose values are the
single live node objects) and the edge array. -/
structure OpState where
  byId : List (String × ONode)
  edges : List OEdge
deriving DecidableEq, Repr

/-- One iteration of the `for (const raw of ops)` loop of `applyOpsInMemory`. -/
def applyOp (st : OpState) : Op → Except String OpState
  | .add_field tableId fid title ty key =>
      match jsObjLookup st.byId tableId with
      | none => .error "Table not found"
      | some t =>
          let t := ensureData t
          let s := nodeSchema t
          if s.any (fun f => f.id = fid) then .error "Field id exists"
          else
            let newField : OField :=
              { id := fid, title := title, type' := ty,
                key := toCanonicalKey key, nullable := true, dflt := none }
            let t' : ONode :=
              { t with data := some { label := (t.data.getD { label := t.id, schema := [] }).label
                                      schema := s ++ [newField] } }
            .ok { st with byId := jsObjInsert st.byId tableId t' }
  | .rename_table oldId newId newLabel =>
      match jsObjLookup st.byId oldId with
      | none => .error "Table not found"
      | some t =>
          if (jsObjLookup st.byId newId).isSome then .error "New table id exists"
          else
            let label := newLabel.getD ((t.data.map (·.label)).getD newId)
            let schema := (t.data.map (·.schema)).getD []
            let t' : ONode := { id := newId, data := some { label := label, schema := schema } }
            .ok { byId := jsObjInsert (jsObjDelete st.byId oldId) newId t'
                  edges := rewriteEdgesOnTableRename st.edges oldId newId }
  | .delete_field tableId fieldId =>
      match jsObjLookup st.byId tableId with
      | none => .error "Table not found"
      | some t =>
          let t := ensureData t
          let s := nodeSchema t
          let s' := s.filter (fun f => ¬ (f.id = fieldId))
          if s'.length = s.length then .error "Field not found"
          else
            let t' : ONode :=
              { t with data := some { label := (t.data.getD { label := t.id, schema := [] }).label
                                      schema := s' } }
            .ok { byId := jsObjInsert st.byId tableId t'
                  edges := removeEdgesTouchingField st.edges fieldId }

/-- The ops loop, first error aborts. -/
def applyOps (st : OpState) : List Op → Except String OpState
  | [] => .ok st
  | op :: rest => do
      let st' ← applyOp st op
      applyOps st' rest

/-- `applyOpsInMemory` from `src/services/diagrams/ops.ts`: clone the caller's
`nodes`/`edges` (a deep clone of a pure value is the value itself), build the
`byId` map, run the ops, and return `{nodes: [...byId.values()], edges}`. -/
def applyOpsInMemory (doc : OGraph) (ops : List Op) : Except String OGraph := do
  let byId := jsObjFromEntries (doc.nodes.map (fun n => (n.id, n)))
  let st ← applyOps { byId := byId, edges := doc.edges } ops
  .ok { nodes := st.byId.map (·.2), edges := st.edges }

/-- The caller's policy around `applyOpsInMemory` (`updateDiagram`'s ops path):
commit the produced graph on success, keep the original diagram untouched when
any operation throws. -/
def commitOpsOrKeep (doc : OGraph) (ops : List Op) : OGraph :=
  match applyOpsInMemory doc ops with
  | .ok g => g
  | .error _ => doc

/- ================= optimistic concurrency (updateDiagram) ================= -/

/-- The persisted diagram content guarded by the version counter. -/
structure StoredDiagram where
  nodes : List StrictNode
  edges : List StrictEdge
  version : Nat
deriving DecidableEq, Repr

/-- Modelled from the spec: the persistence interface's
`conditionalUpdate({id, expectedVersion}, patch) -> Diagram|null` used by
`updateDiagram` via `findOneAndUpdate({_id, version}, {$set …, $inc {version: 1}})`.
The underlying database (an external collaborator, not part of the analysed
sources) atomically sets the new `nodes`/`edges` and increments `version`
only when the stored version equals the expected one; otherwise nothing is
written and `null` is returned. -/
def conditionalUpdate (d : StoredDiagram) (expectedVersion : Nat)
    (newNodes : List StrictNode) (newEdges : List StrictEdge) :
    Option StoredDiagram × StoredDiagram :=
  if d.version = expectedVersion then
    let d' : StoredDiagram :=
      { nodes := newNodes, edges := newEdges, version := d.version + 1 }
    (some d', d')
  else
    (none, d)

/- ================= SQL compiler (erdToSql.ts) ================= -/

/-- The `TErd` input of the SQL compiler (`src/schemas/erd.ts`): label plus
title/type/key fields per node, handles per edge. -/
structure SqlField where
  id : String
  title : String
  type' : String
  key : Option FieldKey
deriving DecidableEq, Repr

/-- `TErd` node. -/
structure SqlNode where
  id : String
  label : String
  schema : List SqlField
deriving DecidableEq, Repr

/-- `TErd` edge (only the handles matter to `erdToSql`). -/
structure SqlEdge where
  id : String
  source : String
  target : String
  sourceHandle : Option String
  targetHandle : Option String
deriving DecidableEq, Repr

/-- `TErd`. -/
structure SqlErd where
  nodes : List SqlNode
  edges : List SqlEdge
deriving DecidableEq, Repr

/-- `parseHandle` from `src/utils/sql/erdToSql.ts`: an anchored regex with a
non-greedy table prefix, a column group excluding dashes and whitespace, and a
side marker. Backtracking makes this split at the last dash of the core, so
the match succeeds exactly when the core has a dash with a nonempty prefix and
a nonempty whitespace-free last segment. -/
def parseHandle (handle : Option String) : Option (String × String) :=
  match handle with
  | none => none
  | some h =>
      let core :=
        if strEndsWith h "-left" then some (strDropRight h 5)
        else if strEndsWith h "-right" then some (strDropRight h 6)
        else none
      match core with
      | none => none
      | some core =>
          let rev := core.data.reverse
          let colRev := rev.takeWhile (fun c => ¬ (c = '-'))
          let rest := rev.drop colRev.length
          match rest with
          | [] => none
          | _ :: tabRev =>
              if colRev.isEmpty ∨ tabRev.isEmpty ∨ colRev.any wsp then none
              else some (⟨tabRev.reverse⟩, ⟨colRev.reverse⟩)

/-- A column record of `erdToSql`. -/
structure SqlCol where
  name : String
  type' : String
  pk : Bool
  fk : Bool
deriving DecidableEq, Repr

/-- A foreign-key record of `erdToSql`. -/
structure SqlFk where
  col : String
  refTable : String
  refCol : String
  name : String
deriving DecidableEq, Repr

/-- A table record of `erdToSql`. -/
structure SqlTable where
  name : String
  cols : List SqlCol
  pks : List String
  fks : List SqlFk
deriving DecidableEq, Repr

/-- The `DialectRenderer` capability consumed by `erdToSql` (its
implementations live in `dialects.ts`, outside the analysed sources).
Modelled from the spec: identifier quoting, type-name mapping,
identity-clause synthesis, a NOW()-equivalent default, and schema support. -/
structure DialectRenderer where
  id : String
  q : String → String
  type' : String → String
  identity : String → Bool → String
  now : String
  supportsSchema : Bool

/-- Modelled from the spec: a renderer whose quoting and type mapping are the
identity, so that emitted clauses read exactly as the spec's examples
(`FOREIGN KEY (user_id) REFERENCES users (id)`). -/
def plainRenderer : DialectRenderer :=
  { id := "postgres"
    q := fun s => s
    type' := fun s => s
    identity := fun t pk => if pk then t ++ " GENERATED ALWAYS AS IDENTITY" else t
    now := "NOW()"
    supportsSchema := true }

/-- The `Options`/`cfg` record of `erdToSql` (defaults all true, empty schema
prefix, exactly as the `cfg` spread computes them when only `dialect` is
passed). -/
structure SqlOptions where
  dialect : DialectRenderer
  schema : String := ""
  addNotNull : Bool := true
  addFkIndexes : Bool := true
  addTimestampsDefault : Bool := true
  addIdentity : Bool := true

/-- Lexicographic (codepoint) order on char lists — the effect of
`localeCompare` on the ASCII identifiers this compiler emits. -/
def listLtB : List Char → List Char → Bool
  | [], [] => false
  | [], _ :: _ => true
  | _ :: _, [] => false
  | a :: as, b :: bs =>
      if a.toNat < b.toNat then true
      else if b.toNat < a.toNat then false
      else listLtB as bs

/-- String comparison used by the sort. -/
def strLtB (a b : String) : Bool := listLtB a.data b.data

/-- Stable insertion sort on a string projection — the
`[...arr].sort((a,b) => proj(a).localeCompare(proj(b)))` helper `sortBy`. -/
def sortByKey {α : Type} (proj : α → String) : List α → List α
  | [] => []
  | a :: l => insertSorted a (sortByKey proj l)
where insertSorted (a : α) : List α → List α
  | [] => [a]
  | b :: l => if strLtB (proj b) (proj a) then b :: insertSorted a l else a :: b :: l

/-- Step 1 of `erdToSql`: fold one node's fields into the table keyed by its
label. -/
def collectNode (tables : List (String × SqlTable)) (n : SqlNode) :
    List (String × SqlTable) :=
  let tableName := jsTrim n.label
  let t := (jsObjLookup tables tableName).getD
    { name := tableName, cols := [], pks := [], fks := [] }
  let t := (sortByKey (fun f => f.title) n.schema).foldl
    (fun t c =>
      let col : SqlCol :=
        { name := jsTrim c.title
          type' := if c.type' = "" then "TEXT" else c.type'
          pk := c.key = some .PK
          fk := c.key = some .FK }
      { t with
        cols := t.cols ++ [col]
        pks := if col.pk then t.pks ++ [col.name] else t.pks }) t
  jsObjInsert tables tableName t

/-- `getCol` of `erdToSql`. -/
def getCol (tables : List (String × SqlTable)) (t c : String) : Option SqlCol :=
  match jsObjLookup tables t with
  | none => none
  | some tbl => tbl.cols.find? (fun x => x.name = c)

/-- Step 2 of `erdToSql`: infer one edge's foreign key and attach it to the
child table (the target side unless exactly the source column carries the FK
flag). -/
def inferEdgeFk (tables : List (String × SqlTable)) (e : SqlEdge) :
    List (String × SqlTable) :=
  match parseHandle e.sourceHandle, parseHandle e.targetHandle with
  | some a, some b =>
      let aIsFK := ((getCol tables a.1 a.2).map (·.fk)).getD false
      let bIsFK := ((getCol tables b.1 b.2).map (·.fk)).getD false
      let (child, parent) :=
        if aIsFK ∧ ¬ bIsFK then (a, b)
        else (b, a)
      match jsObjLookup tables child.1, jsObjLookup tables parent.1 with
      | some childTbl, some _ =>
          match getCol tables child.1 child.2, getCol tables parent.1 parent.2 with
          | some _, some _ =>
              let fk : SqlFk :=
                { col := child.2, refTable := parent.1, refCol := parent.2
                  name := "fk_" ++ child.1 ++ "_" ++ child.2 ++ "_to_" ++ parent.1 ++ "_" ++ parent.2 }
              jsObjInsert tables child.1 { childTbl with fks := childTbl.fks ++ [fk] }
          | _, _ => tables
      | _, _ => tables
  | _, _ => tables

/-- Column-definition lines of one table (step 3 of `erdToSql`). -/
def tableColDefs (cfg : SqlOptions) (tbl : SqlTable) : List String :=
  let d := cfg.dialect
  let isSqlite := d.id = "sqlite"
  let singlePk := tbl.pks.length = 1
  let inlineSqlitePk := isSqlite ∧ singlePk ∧ cfg.addIdentity
  let colLines := tbl.cols.map (fun c =>
    let typeSql := d.type' c.type'
    let typeSql := if cfg.addIdentity ∧ c.pk then d.identity typeSql true else typeSql
    let parts := [d.q c.name ++ " " ++ typeSql]
    let parts := if cfg.addNotNull ∧ (c.pk ∨ c.fk) then
        (if inlineSqlitePk ∧ c.pk then parts else parts ++ ["NOT NULL"])
      else parts
    let parts := if cfg.addTimestampsDefault ∧ (c.name = "created_at" ∨ c.name = "updated_at") then
        parts ++ ["DEFAULT " ++ d.now]
      else parts
    "  " ++ String.intercalate " " parts)
  let pkLines :=
    if ¬ inlineSqlitePk ∧ tbl.pks.length ≠ 0 then
      ["  PRIMARY KEY (" ++ String.intercalate ", " (tbl.pks.map d.q) ++ ")"]
    else []
  colLines ++ pkLines

/-- Schema-qualified table name helper `fq`. -/
def fqName (cfg : SqlOptions) (tbl : String) : String :=
  let d := cfg.dialect
  if cfg.schema ≠ "" ∧ d.supportsSchema then d.q cfg.schema ++ "." ++ d.q tbl
  else d.q tbl

/-- The emitted lines for one table (CREATE TABLE plus optional FK indexes). -/
def emitTable (cfg : SqlOptions) (tbl : SqlTable) : List String :=
  let d := cfg.dialect
  let colDefs := tableColDefs cfg tbl
  let fkDefs := tbl.fks.map (fun fk =>
    "  CONSTRAINT " ++ d.q fk.name ++ " FOREIGN KEY (" ++ d.q fk.col ++
      ") REFERENCES " ++ fqName cfg fk.refTable ++ " (" ++ d.q fk.refCol ++ ")")
  let createLines :=
    ["CREATE TABLE IF NOT EXISTS " ++ fqName cfg tbl.name ++ " (\n" ++
       String.intercalate ",\n" (colDefs ++ fkDefs) ++ "\n);", ""]
  let indexLines :=
    if cfg.addFkIndexes then
      (tbl.fks.map (fun fk =>
        "CREATE INDEX IF NOT EXISTS " ++ d.q (tbl.name ++ "_" ++ fk.col ++ "_idx") ++
          " ON " ++ fqName cfg tbl.name ++ " (" ++ d.q fk.col ++ ");")) ++ [""]
    else []
  createLines ++ indexLines

/-- `erdToSql` from `src/utils/sql/erdToSql.ts`: collect tables per label
(nodes sorted by label, fields by title), infer FKs from edges, then emit
CREATE SCHEMA / CREATE TABLE / CREATE INDEX lines joined with newlines. -/
def erdToSql (erd : SqlErd) (cfg : SqlOptions) : String :=
  let tables := (sortByKey (fun n => n.label) erd.nodes).foldl collectNode []
  let tables := erd.edges.foldl inferEdgeFk tables
  let useSchema := cfg.schema ≠ "" ∧ cfg.dialect.supportsSchema
  let header := if useSchema then
      ["CREATE SCHEMA IF NOT EXISTS " ++ cfg.dialect.q cfg.schema ++ ";", ""]
    else []
  let body := (sortByKey (fun p => p.1) tables).foldl
    (fun acc p => acc ++ emitTable cfg p.2) []
  String.intercalate "\n" (header ++ body)

/-- Substring test on the emitted SQL text. -/
def strContains (s pat : String) : Bool := decide (pat.data <:+: s.data)

/- ================= spec-side reference definitions ================= -/

/-- The spec's cardinality table (§4.2), written from the spec's words for
comparison with `inferMarkerEnd`: FK → zero-to-many/many, PK → zero-to-one/one,
no key → zero-to-many/many, switching on `nullable === true`. -/
def specCardinalityTable (key : Option FieldKey) (nullable : Option Bool) : MarkerEnd :=
  match key with
  | some .FK => if nullable = some true then .zeroToManyEnd else .manyEnd
  | some .PK => if nullable = some true then .zeroToOneEnd else .oneEnd
  | none => if nullable = some true then .zeroToManyEnd else .manyEnd

/-- How a strict field reads back as raw JSON input. -/
def strictFieldToRaw (f : StrictField) : RawField :=
  { id := some f.id, title := some f.title, type' := some f.type',
    key := f.key.map fieldKeyStr, nullable := none, note := none }

/-- How a strict node reads back as raw JSON input. -/
def strictNodeToRaw (n : StrictNode) : RawNode :=
  { id := some n.id, type' := some "databaseSchema",
    position := some n.position,
    data := some { label := some n.data.label,
                   schema := some (n.data.schema.map strictFieldToRaw) } }

/-- How a strict edge reads back as raw JSON input. -/
def strictEdgeToRaw (e : StrictEdge) : RawEdge :=
  { id := some e.id, source := some e.source, target := some e.target,
    sourceHandle := e.sourceHandle, targetHandle := e.targetHandle,
    type' := some "superCurvyEdge",
    markerStart := some (markerStartStr e.markerStart),
    markerEnd := some (markerEndStr e.markerEnd),
    data := some e.data }

/-- How a whole strict graph reads back as raw JSON input (for idempotence). -/
def strictToRaw (g : StrictErd) : RawInput :=
  .obj (some (g.nodes.map strictNodeToRaw)) (some (g.edges.map strictEdgeToRaw))

/-- The loose shape a strict field reads back to (under `ZSchemaFieldLoose`). -/
def fieldToLoose (f : StrictField) : LooseField :=
  { id := f.id, title := f.title, type' := f.type', key := f.key,
    nullable := none, note := none }

/-- The loose shape a strict node reads back to (under `ZNodeLoose`). -/
def looseOfStrictNode (n : StrictNode) : LooseNode :=
  { id := n.id, position := n.position,
    data := { label := n.data.label, schema := n.data.schema.map fieldToLoose } }

/-- The loose shape a strict edge reads back to (under `ZEdgeLoose`). -/
def looseOfStrictEdge (e : StrictEdge) : LooseEdge :=
  { id := e.id, source := e.source, target := e.target,
    sourceHandle := e.sourceHandle, targetHandle := e.targetHandle,
    type' := some (), markerStart := some e.markerStart,
    markerEnd := some e.markerEnd, data := some e.data }

/- ================= strict invariants ================= -/

/-- A nonempty string that `jsTrim` leaves unchanged. -/
def trimmedNE (s : String) : Bool := ¬ (s = "") ∧ jsTrim s = s

/-- An optional handle is valid when absent, empty, or trimmed; `sided` fixes
in addition the required trailing side marker. -/
def handleOk (side : String) (h : Option String) : Bool :=
  match h with
  | none => true
  | some s => s = "" ∨ (jsTrim s = s ∧ strEndsWith s ("-" ++ side))

/-- Strict field invariant: all three strings nonempty and trimmed. -/
def strictFieldOk (f : StrictField) : Bool :=
  trimmedNE f.id ∧ trimmedNE f.title ∧ trimmedNE f.type'

/-- Strict node invariant. -/
def strictNodeOk (n : StrictNode) : Bool :=
  trimmedNE n.id ∧ trimmedNE n.data.label ∧ n.data.schema.all strictFieldOk

/-- Strict edge invariant: ids nonempty and trimmed, handles correctly sided
(source `-right`, target `-left`); markers and the `superCurvyEdge` type are
present by construction of `StrictEdge`. -/
def strictEdgeOk (e : StrictEdge) : Bool :=
  trimmedNE e.id ∧ trimmedNE e.source ∧ trimmedNE e.target ∧
    handleOk "right" e.sourceHandle ∧ handleOk "left" e.targetHandle

/-- The §3 invariants of a strict graph that are not already enforced by the
`StrictErd` type itself. -/
def strictErdOk (g : StrictErd) : Bool :=
  g.nodes.all strictNodeOk ∧ g.edges.all strictEdgeOk

/- ================= Except / mapE lemmas ================= -/

theorem except_bind_ok {α β : Type} (a : α) (f : α → Except String β) :
    (Except.ok a >>= f) = f a := rfl

theorem except_bind_inv {α β : Type} {x : Except String α}
    {f : α → Except String β} {b : β} (h : (x >>= f) = .ok b) :
    ∃ a, x = .ok a ∧ f a = .ok b := by
  cases x with
  | ok a => exact ⟨a, rfl, h⟩
  | error e => exact absurd h (by simp [Bind.bind, Except.bind])

theorem mapE_nil {α β : Type} (f : α → Except String β) : mapE f [] = .ok [] := rfl

theorem mapE_cons_inv {α β : Type} {f : α → Except String β} {a : α}
    {l : List α} {out : List β} (h : mapE f (a :: l) = .ok out) :
    ∃ b l', f a = .ok b ∧ mapE f l = .ok l' ∧ out = b :: l' := by
  unfold mapE at h
  obtain ⟨b, hb, h2⟩ := except_bind_inv h
  obtain ⟨l', hl', h3⟩ := except_bind_inv h2
  exact ⟨b, l', hb, hl', by cases h3; rfl⟩

theorem mapE_ok_forall {α β : Type} {f : α → Except String β} :
    ∀ {l : List α} {out : List β}, mapE f l = .ok out →
      List.Forall₂ (fun a b => f a = .ok b) l out := by
  intro l
  induction l with
  | nil => intro out h; cases h; exact .nil
  | cons a l ih =>
      intro out h
      obtain ⟨b, l', hb, hl', rfl⟩ := mapE_cons_inv h
      exact .cons hb (ih hl')

theorem mapE_ok_of_forall {α β : Type} {f : α → Except String β} :
    ∀ {l : List α} {out : List β},
      List.Forall₂ (fun a b => f a = .ok b) l out → mapE f l = .ok out := by
  intro l out h
  induction h with
  | nil => rfl
  | cons hab _ ih =>
      unfold mapE
      rw [hab, except_bind_ok, ih, except_bind_ok]

theorem mapE_id_of_forall {α : Type} {f : α → Except String α} {l : List α}
    (h : ∀ a ∈ l, f a = .ok a) : mapE f l = .ok l := by
  apply mapE_ok_of_forall
  induction l with
  | nil => exact .nil
  | cons a l ih =>
      exact .cons (h a (by simp)) (ih (fun a ha => h a (by simp [ha])))

theorem mapE_map_of_forall {α β : Type} {f : α → Except String β} {g : α → β}
    {l : List α} (h : ∀ a ∈ l, f a = .ok (g a)) : mapE f l = .ok (l.map g) := by
  apply mapE_ok_of_forall
  induction l with
  | nil => exact .nil
  | cons a l ih =>
      exact .cons (h a (by simp)) (ih (fun a ha => h a (by simp [ha])))

theorem forall₂_mem_right {α β : Type} {R : α → β → Prop} :
    ∀ {l : List α} {m : List β}, List.Forall₂ R l m → ∀ b ∈ m, ∃ a ∈ l, R a b := by
  intro l m h
  induction h with
  | nil => intro b hb; cases hb
  | cons hab _ ih =>
      intro b hb
      rcases List.mem_cons.mp hb with rfl | hb'
      · exact ⟨_, by simp, hab⟩
      · obtain ⟨a, ha, hr⟩ := ih b hb'
        exact ⟨a, by simp [ha], hr⟩

theorem mapE_mem_of_ok {α β : Type} {f : α → Except String β} {l : List α}
    {out : List β} (h : mapE f l = .ok out) {b : β} (hb : b ∈ out) :
    ∃ a ∈ l, f a = .ok b :=
  forall₂_mem_right (mapE_ok_forall h) b hb

/- ================= trim lemmas ================= -/

theorem dropWhile_eq_self {p : Char → Bool} {l : List Char}
    (h : ∀ c, l.head? = some c → p c = false) : l.dropWhile p = l := by
  cases l with
  | nil => rfl
  | cons a t => simp [List.dropWhile_cons, h a rfl]

theorem head?_dropWhile {p : Char → Bool} {l : List Char} {c : Char}
    (h : (l.dropWhile p).head? = some c) : p c = false := by
  have := List.head?_dropWhile_not p l
  rw [h] at this
  exact this

theorem trimmedL_trimList (l : List Char) : trimmedL (trimList l) := by
  unfold trimList trimmedL
  constructor
  · intro c hc
    rw [List.head?_reverse] at hc
    obtain ⟨pre, hpre⟩ := List.dropWhile_suffix (l := (l.dropWhile wsp).reverse) wsp
    have hrev : (l.dropWhile wsp).reverse.getLast? = some c := by
      rw [← hpre, List.getLast?_append, hc]; rfl
    rw [List.getLast?_reverse] at hrev
    exact head?_dropWhile hrev
  · intro c hc
    rw [List.getLast?_reverse] at hc
    exact head?_dropWhile hc

theorem trimList_eq_self {l : List Char} (h : trimmedL l) : trimList l = l := by
  unfold trimList
  rw [dropWhile_eq_self h.1]
  rw [dropWhile_eq_self (fun c hc => h.2 c (by rwa [List.head?_reverse] at hc))]
  exact List.reverse_reverse l

theorem trimList_idem (l : List Char) : trimList (trimList l) = trimList l :=
  trimList_eq_self (trimmedL_trimList l)

theorem jsTrim_data (s : String) : (jsTrim s).data = trimList s.data := rfl

theorem jsTrim_idem (s : String) : jsTrim (jsTrim s) = jsTrim s :=
  congrArg String.mk (trimList_idem s.data)

theorem jsTrim_eq_self_of_trimmedL {s : String} (h : trimmedL s.data) :
    jsTrim s = s := by
  have : trimList s.data = s.data := trimList_eq_self h
  cases s
  exact congrArg String.mk this

theorem trimmedL_of_jsTrim_eq_self {s : String} (h : jsTrim s = s) :
    trimmedL s.data := by
  have : trimList s.data = s.data := congrArg String.data h
  rw [← this]
  exact trimmedL_trimList s.data

/- ================= suffix / side-marker lemmas ================= -/

theorem strEndsWith_iff {s suf : String} :
    strEndsWith s suf = true ↔ suf.data <:+ s.data := by
  simp [strEndsWith]

theorem strEndsWith_append (x suf : String) : strEndsWith (x ++ suf) suf = true := by
  rw [strEndsWith_iff, String.data_append]
  exact List.suffix_append _ _

theorem suffix_of_suffix_length_le {z x y : List Char}
    (h : z <:+ x ++ y) (hl : z.length ≤ y.length) : z <:+ y := by
  rw [List.suffix_iff_eq_drop] at h
  rw [List.length_append] at h
  have harith : x.length + y.length - z.length = x.length + (y.length - z.length) := by omega
  rw [harith, List.drop_append] at h
  rw [h]
  exact List.drop_suffix _ _

theorem strEndsWith_right_not_left (x : String) :
    strEndsWith (x ++ "-right") "-left" = false := by
  cases h : strEndsWith (x ++ "-right") "-left" with
  | false => rfl
  | true =>
      exfalso
      have h1 := strEndsWith_iff.mp h
      rw [String.data_append] at h1
      have h2 : ("-left" : String).data <:+ ("-right" : String).data :=
        suffix_of_suffix_length_le h1 (by decide)
      exact absurd h2 (by decide)

theorem strDropRight_append (x suf : String) :
    strDropRight (x ++ suf) suf.data.length = x := by
  unfold strDropRight
  rw [String.data_append]
  have h1 : (x.data ++ suf.data).length - suf.data.length = x.data.length := by
    rw [List.length_append]; omega
  rw [h1, List.take_left]

theorem sideStrip_left_append (x : String) : sideStrip (x ++ "-left") = x := by
  unfold sideStrip
  rw [if_pos (strEndsWith_append x "-left")]
  have h5 : (5 : Nat) = ("-left" : String).data.length := by decide
  rw [h5]
  exact strDropRight_append x "-left"

theorem sideStrip_right_append (x : String) : sideStrip (x ++ "-right") = x := by
  unfold sideStrip
  rw [strEndsWith_right_not_left x]
  simp only [Bool.false_eq_true, if_false]
  rw [if_pos (strEndsWith_append x "-right")]
  have h6 : (6 : Nat) = ("-right" : String).data.length := by decide
  rw [h6]
  exact strDropRight_append x "-right"

theorem sideStrip_of_no_side {h : String}
    (h1 : strEndsWith h "-left" = false) (h2 : strEndsWith h "-right" = false) :
    sideStrip h = h := by
  unfold sideStrip
  rw [h1, h2]
  rfl

theorem eq_append_of_strEndsWith {s suf : String}
    (h : strEndsWith s suf = true) :
    s = strDropRight s suf.data.length ++ suf := by
  have h1 := strEndsWith_iff.mp h
  obtain ⟨pre, hpre⟩ := h1
  have hd : strDropRight s suf.data.length = ⟨pre⟩ := by
    unfold strDropRight
    rw [← hpre]
    have : (pre ++ suf.data).length - suf.data.length = pre.length := by
      rw [List.length_append]; omega
    rw [this, List.take_left]
  rw [hd]
  cases s with
  | mk l =>
      show String.mk l = String.mk (pre ++ suf.data)
      rw [hpre]

theorem string_append_ne_empty_right (x b : String) (hb : b.data ≠ []) :
    x ++ b ≠ "" := by
  intro hemp
  have := congrArg String.data hemp
  rw [String.data_append] at this
  have : b.data = [] := by
    cases hx : x.data with
    | nil => rw [hx] at this; simpa using this
    | cons a t => rw [hx] at this; simp at this
  exact hb this

/- ================= trimmedness of handle strings ================= -/

theorem head?_take {l : List Char} {n : Nat} {c : Char}
    (h : (l.take n).head? = some c) : l.head? = some c := by
  cases l with
  | nil => simp at h
  | cons a t =>
      cases n with
      | zero => simp at h
      | succ m => simpa using h

theorem head?_sideStrip {h : String} {c : Char}
    (hc : (sideStrip h).data.head? = some c) : h.data.head? = some c := by
  unfold sideStrip strDropRight at hc
  split at hc
  · exact head?_take hc
  · split at hc
    · exact head?_take hc
    · exact hc

theorem jsTrim_append_eq_self {a b : String}
    (hb : b.data ≠ [])
    (hbh : ∀ c, b.data.head? = some c → wsp c = false)
    (hbl : ∀ c, b.data.getLast? = some c → wsp c = false)
    (hah : ∀ c, a.data.head? = some c → wsp c = false) :
    jsTrim (a ++ b) = a ++ b := by
  apply jsTrim_eq_self_of_trimmedL
  rw [String.data_append]
  constructor
  · intro c hc
    cases ha : a.data with
    | nil => rw [ha] at hc; simp at hc; exact hbh c hc
    | cons d t =>
        rw [ha] at hc
        rw [List.cons_append, List.head?_cons] at hc
        cases hc
        exact hah c (by rw [ha]; rfl)
  · intro c hc
    rw [List.getLast?_append] at hc
    cases hgl : b.data.getLast? with
    | none => exact absurd (List.getLast?_eq_none_iff.mp hgl) hb
    | some d =>
        rw [hgl] at hc
        simp only [Option.or_some] at hc
        cases hc
        exact hbl c hgl

theorem jsTrim_empty : jsTrim "" = "" := rfl

theorem head?_of_trimmed_str {h : String} (ht : jsTrim h = h) :
    ∀ c, h.data.head? = some c → wsp c = false :=
  (trimmedL_of_jsTrim_eq_self ht).1

theorem forall_head?_of_check {l : List Char}
    (h : (match l.head? with | none => true | some c => !(wsp c)) = true) :
    ∀ c, l.head? = some c → wsp c = false := by
  intro c hc
  rw [hc] at h
  simpa using h

theorem forall_getLast?_of_check {l : List Char}
    (h : (match l.getLast? with | none => true | some c => !(wsp c)) = true) :
    ∀ c, l.getLast? = some c → wsp c = false := by
  intro c hc
  rw [hc] at h
  simpa using h

/-- A trimmed nonempty handle stays trimmed after stripping the side and
appending `-left` or `-right`. -/
theorem jsTrim_sideStrip_append {h sufd : String} (ht : jsTrim h = h)
    (hsuf : sufd = "-left" ∨ sufd = "-right") :
    jsTrim (sideStrip h ++ sufd) = sideStrip h ++ sufd := by
  apply jsTrim_append_eq_self
  · rcases hsuf with rfl | rfl <;> decide
  · rcases hsuf with rfl | rfl <;> exact forall_head?_of_check (by decide)
  · rcases hsuf with rfl | rfl <;> exact forall_getLast?_of_check (by decide)
  · intro c hc
    exact head?_of_trimmed_str ht c (head?_sideStrip hc)

/- ================= zod primitive lemmas ================= -/

theorem zReqString_some_of_ne {s : String} (hs : ¬ s = "") :
    zReqString (some s) = .ok (jsTrim s) := by
  simp [zReqString, hs]

theorem zReqString_trimmed_id {s : String} (ht : jsTrim s = s) (hs : ¬ s = "") :
    zReqString (some s) = .ok s := by
  rw [zReqString_some_of_ne hs, ht]

theorem zReqString_ok_inv {v : Option String} {out : String}
    (h : zReqString v = .ok out) : ∃ s, v = some s ∧ ¬ s = "" ∧ out = jsTrim s := by
  cases v with
  | none => cases h
  | some s =>
      by_cases hs : s = ""
      · rw [hs] at h; cases h
      · rw [zReqString_some_of_ne hs] at h
        cases h
        exact ⟨s, rfl, hs, rfl⟩

theorem zOptTrimString_ok (v : Option String) :
    zOptTrimString v = .ok (v.map jsTrim) := by
  cases v <;> rfl

theorem trimmedNE_iff {s : String} :
    trimmedNE s = true ↔ ¬ s = "" ∧ jsTrim s = s := by
  simp [trimmedNE]

theorem trimmedNE_jsTrim_of_ne {s : String} (ht : jsTrim s = s) (hs : ¬ s = "") :
    trimmedNE s = true := trimmedNE_iff.mpr ⟨hs, ht⟩

/- ================= strict parse lemmas ================= -/

theorem parseStrictField_inv {f g : StrictField} (h : parseStrictField f = .ok g) :
    ¬ f.id = "" ∧ ¬ f.title = "" ∧ ¬ f.type' = "" ∧
      g = { id := jsTrim f.id, title := jsTrim f.title,
            type' := jsTrim f.type', key := f.key } := by
  unfold parseStrictField at h
  obtain ⟨a, ha, h2⟩ := except_bind_inv h
  obtain ⟨b, hb, h3⟩ := except_bind_inv h2
  obtain ⟨c, hc, h4⟩ := except_bind_inv h3
  obtain ⟨s1, hs1, hne1, rfl⟩ := zReqString_ok_inv ha
  obtain ⟨s2, hs2, hne2, rfl⟩ := zReqString_ok_inv hb
  obtain ⟨s3, hs3, hne3, rfl⟩ := zReqString_ok_inv hc
  cases hs1; cases hs2; cases hs3
  cases h4
  exact ⟨hne1, hne2, hne3, rfl⟩

theorem parseStrictField_id {f : StrictField} (h : strictFieldOk f = true) :
    parseStrictField f = .ok f := by
  simp only [strictFieldOk, Bool.and_eq_true, decide_eq_true_eq, trimmedNE_iff] at h
  obtain ⟨⟨hne1, ht1⟩, ⟨hne2, ht2⟩, ⟨hne3, ht3⟩⟩ := h
  unfold parseStrictField
  rw [zReqString_trimmed_id ht1 hne1, except_bind_ok,
      zReqString_trimmed_id ht2 hne2, except_bind_ok,
      zReqString_trimmed_id ht3 hne3, except_bind_ok]

theorem parseStrictField_ok_of_trimmed {f g : StrictField}
    (ht1 : jsTrim f.id = f.id) (ht2 : jsTrim f.title = f.title)
    (ht3 : jsTrim f.type' = f.type') (h : parseStrictField f = .ok g) :
    g = f ∧ strictFieldOk f = true := by
  obtain ⟨hne1, hne2, hne3, rfl⟩ := parseStrictField_inv h
  constructor
  · rw [ht1, ht2, ht3]
  · simp only [strictFieldOk, Bool.and_eq_true, decide_eq_true_eq, trimmedNE_iff]
    exact ⟨⟨hne1, ht1⟩, ⟨hne2, ht2⟩, ⟨hne3, ht3⟩⟩

theorem parseStrictNode_inv {c : NodeCandidate} {g : StrictNode}
    (h : parseStrictNode c = .ok g) :
    ¬ c.id = "" ∧ ¬ c.label = "" ∧
      ∃ schema', mapE parseStrictField c.schema = .ok schema' ∧
        g = { id := jsTrim c.id, position := c.position,
              data := { label := jsTrim c.label, schema := schema' } } := by
  unfold parseStrictNode at h
  obtain ⟨a, ha, h2⟩ := except_bind_inv h
  obtain ⟨b, hb, h3⟩ := except_bind_inv h2
  obtain ⟨sch, hsch, h4⟩ := except_bind_inv h3
  obtain ⟨s1, hs1, hne1, rfl⟩ := zReqString_ok_inv ha
  obtain ⟨s2, hs2, hne2, rfl⟩ := zReqString_ok_inv hb
  cases hs1; cases hs2
  cases h4
  exact ⟨hne1, hne2, sch, hsch, rfl⟩

theorem parseStrictNode_id_candidate {n : StrictNode} (h : strictNodeOk n = true) :
    parseStrictNode (nodeToCandidate n) = .ok n := by
  simp only [strictNodeOk, Bool.and_eq_true, decide_eq_true_eq, trimmedNE_iff,
    List.all_eq_true] at h
  obtain ⟨⟨hne1, ht1⟩, ⟨hne2, ht2⟩, hfields⟩ := h
  unfold parseStrictNode nodeToCandidate
  rw [zReqString_trimmed_id ht1 hne1, except_bind_ok,
      zReqString_trimmed_id ht2 hne2, except_bind_ok,
      mapE_id_of_forall (fun f hf => parseStrictField_id (hfields f hf)),
      except_bind_ok]

theorem parseStrictEdge_inv {e : EdgeCandidate} {g : StrictEdge}
    (h : parseStrictEdge e = .ok g) :
    ¬ e.id = "" ∧ ¬ e.source = "" ∧ ¬ e.target = "" ∧
      g = { id := jsTrim e.id, source := jsTrim e.source, target := jsTrim e.target,
            sourceHandle := e.sourceHandle.map jsTrim,
            targetHandle := e.targetHandle.map jsTrim,
            markerStart := e.markerStart, markerEnd := e.markerEnd,
            data := e.data } := by
  unfold parseStrictEdge at h
  obtain ⟨a, ha, h2⟩ := except_bind_inv h
  obtain ⟨b, hb, h3⟩ := except_bind_inv h2
  obtain ⟨c, hc, h4⟩ := except_bind_inv h3
  obtain ⟨sh, hsh, h5⟩ := except_bind_inv h4
  obtain ⟨th, hth, h6⟩ := except_bind_inv h5
  obtain ⟨s1, hs1, hne1, rfl⟩ := zReqString_ok_inv ha
  obtain ⟨s2, hs2, hne2, rfl⟩ := zReqString_ok_inv hb
  obtain ⟨s3, hs3, hne3, rfl⟩ := zReqString_ok_inv hc
  cases hs1; cases hs2; cases hs3
  rw [zOptTrimString_ok] at hsh hth
  cases hsh; cases hth
  cases h6
  exact ⟨hne1, hne2, hne3, rfl⟩

theorem handleOk_map_jsTrim {side : String} {h : Option String}
    (hok : handleOk side h = true) : h.map jsTrim = h := by
  cases h with
  | none => rfl
  | some s =>
      simp only [handleOk, Bool.or_eq_true, Bool.and_eq_true, decide_eq_true_eq] at hok
      rcases hok with rfl | ⟨ht, _⟩
      · rfl
      · simp [ht]

theorem parseStrictEdge_id_candidate {e : StrictEdge} (h : strictEdgeOk e = true) :
    parseStrictEdge (edgeToCandidate e) = .ok e := by
  simp only [strictEdgeOk, Bool.and_eq_true, decide_eq_true_eq, trimmedNE_iff] at h
  obtain ⟨⟨hne1, ht1⟩, ⟨hne2, ht2⟩, ⟨hne3, ht3⟩, hsh, hth⟩ := h
  unfold parseStrictEdge edgeToCandidate
  rw [zReqString_trimmed_id ht1 hne1, except_bind_ok,
      zReqString_trimmed_id ht2 hne2, except_bind_ok,
      zReqString_trimmed_id ht3 hne3, except_bind_ok,
      zOptTrimString_ok, except_bind_ok, zOptTrimString_ok, except_bind_ok,
      handleOk_map_jsTrim hsh, handleOk_map_jsTrim hth]

theorem parseStrictErd_id {nodes : List StrictNode} {edges : List StrictEdge}
    (hn : ∀ n ∈ nodes, strictNodeOk n = true)
    (he : ∀ e ∈ edges, strictEdgeOk e = true) :
    parseStrictErd nodes edges = .ok { nodes := nodes, edges := edges } := by
  unfold parseStrictErd
  rw [mapE_id_of_forall (fun n hmem => parseStrictNode_id_candidate (hn n hmem)),
      except_bind_ok,
      mapE_id_of_forall (fun e hmem => parseStrictEdge_id_candidate (he e hmem)),
      except_bind_ok]

/- ================= loose parse lemmas ================= -/

theorem mapE_map_comp {α β γ : Type} {f : β → Except String γ} {g : α → β}
    {h : α → γ} {l : List α} (hp : ∀ a ∈ l, f (g a) = .ok (h a)) :
    mapE f (l.map g) = .ok (l.map h) := by
  induction l with
  | nil => rfl
  | cons a t ih =>
      rw [List.map_cons, List.map_cons]
      unfold mapE
      rw [hp a (by simp), except_bind_ok,
          ih (fun a ha => hp a (by simp [ha])), except_bind_ok]

theorem parseLooseField_inv {f : RawField} {g : LooseField}
    (h : parseLooseField f = .ok g) :
    jsTrim g.id = g.id ∧ jsTrim g.title = g.title ∧ jsTrim g.type' = g.type' := by
  unfold parseLooseField at h
  obtain ⟨a, ha, h2⟩ := except_bind_inv h
  obtain ⟨b, hb, h3⟩ := except_bind_inv h2
  obtain ⟨c, hc, h4⟩ := except_bind_inv h3
  obtain ⟨k, _, h5⟩ := except_bind_inv h4
  obtain ⟨nt, _, h6⟩ := except_bind_inv h5
  obtain ⟨s1, _, _, rfl⟩ := zReqString_ok_inv ha
  obtain ⟨s2, _, _, rfl⟩ := zReqString_ok_inv hb
  obtain ⟨s3, _, _, rfl⟩ := zReqString_ok_inv hc
  cases h6
  exact ⟨jsTrim_idem s1, jsTrim_idem s2, jsTrim_idem s3⟩

theorem parseLooseNode_inv {n : RawNode} {g : LooseNode}
    (h : parseLooseNode n = .ok g) :
    jsTrim g.id = g.id ∧ jsTrim g.data.label = g.data.label ∧
      ∀ f ∈ g.data.schema,
        jsTrim f.id = f.id ∧ jsTrim f.title = f.title ∧ jsTrim f.type' = f.type' := by
  unfold parseLooseNode at h
  obtain ⟨a, ha, h2⟩ := except_bind_inv h
  obtain ⟨u, _, h3⟩ := except_bind_inv h2
  obtain ⟨d, hd, h4⟩ := except_bind_inv h3
  obtain ⟨s1, _, _, rfl⟩ := zReqString_ok_inv ha
  cases h4
  refine ⟨jsTrim_idem s1, ?_⟩
  cases hnd : n.data with
  | none =>
      rw [hnd] at hd
      cases hd
      constructor
      · show jsTrim "Table" = "Table"
        decide
      · intro f hf
        exact absurd hf (by simp)
  | some dd =>
      rw [hnd] at hd
      obtain ⟨lb, hlb, h5⟩ := except_bind_inv hd
      obtain ⟨sch, hsch, h6⟩ := except_bind_inv h5
      obtain ⟨s2, _, _, rfl⟩ := zReqString_ok_inv hlb
      cases h6
      refine ⟨jsTrim_idem s2, fun f hf => ?_⟩
      obtain ⟨rf, _, hrf⟩ := mapE_mem_of_ok hsch hf
      exact parseLooseField_inv hrf

theorem parseLooseEdge_inv {e : RawEdge} {g : LooseEdge}
    (h : parseLooseEdge e = .ok g) :
    jsTrim g.id = g.id ∧ jsTrim g.source = g.source ∧ jsTrim g.target = g.target ∧
      (∀ s, g.sourceHandle = some s → jsTrim s = s) ∧
      (∀ s, g.targetHandle = some s → jsTrim s = s) := by
  unfold parseLooseEdge at h
  obtain ⟨a, ha, h2⟩ := except_bind_inv h
  obtain ⟨b, hb, h3⟩ := except_bind_inv h2
  obtain ⟨c, hc, h4⟩ := except_bind_inv h3
  obtain ⟨sh, hsh, h5⟩ := except_bind_inv h4
  obtain ⟨th, hth, h6⟩ := except_bind_inv h5
  obtain ⟨ty, _, h7⟩ := except_bind_inv h6
  obtain ⟨ms, _, h8⟩ := except_bind_inv h7
  obtain ⟨me, _, h9⟩ := except_bind_inv h8
  obtain ⟨s1, _, _, rfl⟩ := zReqString_ok_inv ha
  obtain ⟨s2, _, _, rfl⟩ := zReqString_ok_inv hb
  obtain ⟨s3, _, _, rfl⟩ := zReqString_ok_inv hc
  rw [zOptTrimString_ok] at hsh hth
  cases hsh; cases hth
  cases h9
  refine ⟨jsTrim_idem s1, jsTrim_idem s2, jsTrim_idem s3, ?_, ?_⟩
  · intro s hs
    cases hv : e.sourceHandle with
    | none => rw [hv] at hs; cases hs
    | some v =>
        rw [hv] at hs
        simp only [Option.map, Option.some.injEq] at hs
        rw [← hs]
        exact jsTrim_idem v
  · intro s hs
    cases hv : e.targetHandle with
    | none => rw [hv] at hs; cases hs
    | some v =>
        rw [hv] at hs
        simp only [Option.map, Option.some.injEq] at hs
        rw [← hs]
        exact jsTrim_idem v

theorem parseLooseErd_inv {raw : RawInput} {l : LooseErd}
    (h : parseLooseErd raw = .ok l) :
    ∃ ns es, raw = .obj ns es ∧
      mapE parseLooseNode (ns.getD []) = .ok l.nodes ∧
      mapE parseLooseEdge (es.getD []) = .ok l.edges := by
  cases raw with
  | notObject => cases h
  | obj ns es =>
      unfold parseLooseErd at h
      obtain ⟨nodes, hn, h2⟩ := except_bind_inv h
      obtain ⟨edges, he, h3⟩ := except_bind_inv h2
      cases h3
      exact ⟨ns, es, rfl, hn, he⟩

/- ================= forceSide / handle invariants ================= -/

theorem handleOk_forceSide {h : Option String} {side : String}
    (hside : side = "left" ∨ side = "right")
    (ht : ∀ s, h = some s → jsTrim s = s) :
    handleOk side ((forceSide h side).map jsTrim) = true := by
  cases h with
  | none => rfl
  | some s =>
      by_cases hs : s = ""
      · subst hs
        rw [show forceSide (some "") side = some "" from rfl]
        show handleOk side (some (jsTrim "")) = true
        rw [jsTrim_empty]
        simp only [handleOk, decide_eq_true_eq]
        exact Or.inl trivial
      · have hts : jsTrim s = s := ht s rfl
        have hval : forceSide (some s) side = some (sideStrip s ++ ("-" ++ side)) := by
          simp only [forceSide, hs, if_false]
          rw [String.append_assoc]
        rw [hval]
        have htrim : jsTrim (sideStrip s ++ ("-" ++ side)) = sideStrip s ++ ("-" ++ side) := by
          rcases hside with rfl | rfl
          · exact jsTrim_sideStrip_append hts (Or.inl rfl)
          · exact jsTrim_sideStrip_append hts (Or.inr rfl)
        show handleOk side (some (jsTrim (sideStrip s ++ ("-" ++ side)))) = true
        rw [htrim]
        simp only [handleOk, decide_eq_true_eq]
        exact Or.inr ⟨htrim, strEndsWith_append _ _⟩

theorem forceSide_fixed {h : Option String} {side : String}
    (hside : side = "left" ∨ side = "right")
    (hok : handleOk side h = true) : forceSide h side = h := by
  cases h with
  | none => rfl
  | some s =>
      simp only [handleOk, Bool.or_eq_true, Bool.and_eq_true, decide_eq_true_eq] at hok
      rcases hok with rfl | ⟨_, hend⟩
      · rfl
      · have heq := eq_append_of_strEndsWith hend
        set y := strDropRight s (("-" ++ side) : String).data.length with hy
        have hne : ¬ s = "" := by
          rw [heq]
          rcases hside with rfl | rfl
          · exact string_append_ne_empty_right y "-left" (by decide)
          · exact string_append_ne_empty_right y "-right" (by decide)
        have hstrip : sideStrip s = y := by
          rcases hside with rfl | rfl
          · rw [heq]; exact sideStrip_left_append y
          · rw [heq]; exact sideStrip_right_append y
        simp only [forceSide, hne, if_false]
        rw [String.append_assoc, hstrip, ← heq]

/- ================= strict → raw round-trip lemmas ================= -/

theorem toStrictField_fieldToLoose (f : StrictField) :
    toStrictField (fieldToLoose f) = f := by
  rcases f with ⟨id, title, ty, key⟩
  cases key with
  | none => rfl
  | some k => cases k <;> rfl

theorem map_fieldToLoose_toStrictField (l : List StrictField) :
    (l.map fieldToLoose).map toStrictField = l := by
  induction l with
  | nil => rfl
  | cons f t ih => simp [toStrictField_fieldToLoose, ih]

theorem parseMarkerStart_roundtrip (m : MarkerStart) :
    parseMarkerStart (markerStartStr m) = some m := by
  cases m <;> rfl

theorem parseMarkerEnd_roundtrip (m : MarkerEnd) :
    parseMarkerEnd (markerEndStr m) = some m := by
  cases m <;> rfl

theorem zKeyLoose_roundtrip (k : Option FieldKey) :
    zKeyLoose (k.map fieldKeyStr) = .ok k := by
  cases k with
  | none => rfl
  | some key => cases key <;> rfl

theorem parseLooseField_of_strict {f : StrictField} (h : strictFieldOk f = true) :
    parseLooseField (strictFieldToRaw f) = .ok (fieldToLoose f) := by
  simp only [strictFieldOk, Bool.and_eq_true, decide_eq_true_eq, trimmedNE_iff] at h
  obtain ⟨⟨hne1, ht1⟩, ⟨hne2, ht2⟩, ⟨hne3, ht3⟩⟩ := h
  unfold parseLooseField strictFieldToRaw
  rw [zReqString_trimmed_id ht1 hne1, except_bind_ok,
      zReqString_trimmed_id ht2 hne2, except_bind_ok,
      zReqString_trimmed_id ht3 hne3, except_bind_ok,
      zKeyLoose_roundtrip, except_bind_ok]
  rfl

theorem zOptMarkerStart_roundtrip (m : MarkerStart) :
    zOptMarkerStart (some (markerStartStr m)) = .ok (some m) := by
  cases m <;> rfl

theorem zOptMarkerEnd_roundtrip (m : MarkerEnd) :
    zOptMarkerEnd (some (markerEndStr m)) = .ok (some m) := by
  cases m <;> rfl

theorem parseLooseNode_of_strict {n : StrictNode} (h : strictNodeOk n = true) :
    parseLooseNode (strictNodeToRaw n) = .ok (looseOfStrictNode n) := by
  simp only [strictNodeOk, decide_eq_true_eq, trimmedNE_iff, List.all_eq_true] at h
  obtain ⟨⟨hne1, ht1⟩, ⟨hne2, ht2⟩, hfields⟩ := h
  show (do
      let id ← zReqString (some n.id)
      let data ← (do
        let label ← zReqString (some n.data.label)
        let schema ← mapE parseLooseField (n.data.schema.map strictFieldToRaw)
        Except.ok ({ label := label, schema := schema } : LooseNodeData))
      Except.ok ({ id := id, position := n.position, data := data } : LooseNode)) =
    Except.ok (looseOfStrictNode n)
  rw [zReqString_trimmed_id ht1 hne1, except_bind_ok,
      zReqString_trimmed_id ht2 hne2, except_bind_ok,
      mapE_map_comp (fun f hf => parseLooseField_of_strict (hfields f hf)),
      except_bind_ok, except_bind_ok]
  rfl

theorem parseLooseEdge_of_strict {e : StrictEdge} (h : strictEdgeOk e = true) :
    parseLooseEdge (strictEdgeToRaw e) = .ok (looseOfStrictEdge e) := by
  simp only [strictEdgeOk, decide_eq_true_eq, trimmedNE_iff] at h
  obtain ⟨⟨hne1, ht1⟩, ⟨hne2, ht2⟩, ⟨hne3, ht3⟩, hsh, hth⟩ := h
  show (do
      let id ← zReqString (some e.id)
      let source ← zReqString (some e.source)
      let target ← zReqString (some e.target)
      let sh ← zOptTrimString e.sourceHandle
      let th ← zOptTrimString e.targetHandle
      let ty ← zOptLiteral "superCurvyEdge" (some "superCurvyEdge")
      let ms ← zOptMarkerStart (some (markerStartStr e.markerStart))
      let me ← zOptMarkerEnd (some (markerEndStr e.markerEnd))
      Except.ok ({ id := id, source := source, target := target,
                   sourceHandle := sh, targetHandle := th, type' := ty,
                   markerStart := ms, markerEnd := me,
                   data := some e.data } : LooseEdge)) =
    Except.ok (looseOfStrictEdge e)
  rw [zReqString_trimmed_id ht1 hne1, except_bind_ok,
      zReqString_trimmed_id ht2 hne2, except_bind_ok,
      zReqString_trimmed_id ht3 hne3, except_bind_ok,
      zOptTrimString_ok, except_bind_ok, zOptTrimString_ok, except_bind_ok,
      handleOk_map_jsTrim hsh, handleOk_map_jsTrim hth,
      show zOptLiteral "superCurvyEdge" (some "superCurvyEdge") = .ok (some ()) from rfl,
      except_bind_ok,
      zOptMarkerStart_roundtrip, except_bind_ok,
      zOptMarkerEnd_roundtrip, except_bind_ok]
  rfl

/- ================= normalize-step lemmas ================= -/

theorem mapE_map_id {α β : Type} {f : β → Except String α} {g : α → β}
    {l : List α} (hp : ∀ a ∈ l, f (g a) = .ok a) : mapE f (l.map g) = .ok l := by
  induction l with
  | nil => rfl
  | cons a t ih =>
      rw [List.map_cons]
      unfold mapE
      rw [hp a (by simp), except_bind_ok,
          ih (fun a ha => hp a (by simp [ha])), except_bind_ok]

theorem forall₂_imp_of_mem {α β : Type} {R S : α → β → Prop} :
    ∀ {l : List α} {m : List β}, (∀ a b, a ∈ l → R a b → S a b) →
      List.Forall₂ R l m → List.Forall₂ S l m := by
  intro l m himp h
  induction h with
  | nil => exact .nil
  | cons hab htail ih =>
      exact .cons (himp _ _ (by simp) hab)
        (ih (fun a b ha hr => himp a b (by simp [ha]) hr))

theorem normalizeNode_inv {ln : LooseNode} {sn : StrictNode}
    (ht1 : jsTrim ln.id = ln.id) (ht2 : jsTrim ln.data.label = ln.data.label)
    (htf : ∀ f ∈ ln.data.schema,
      jsTrim f.id = f.id ∧ jsTrim f.title = f.title ∧ jsTrim f.type' = f.type')
    (h : normalizeNode ln = .ok sn) :
    strictNodeOk sn = true ∧ sn.data.schema.length = ln.data.schema.length := by
  unfold normalizeNode at h
  obtain ⟨hne1, hne2, schema', hsch, rfl⟩ := parseStrictNode_inv h
  have hfieldsOk : ∀ sf ∈ schema', strictFieldOk sf = true := by
    intro sf hsf
    obtain ⟨cf, hcf, hparse⟩ := mapE_mem_of_ok hsch hsf
    obtain ⟨lf, hlf, rfl⟩ := List.mem_map.mp hcf
    obtain ⟨u1, u2, u3⟩ := htf lf hlf
    obtain ⟨heq, hok⟩ := parseStrictField_ok_of_trimmed u1 u2 u3 hparse
    rw [heq]
    exact hok
  constructor
  · simp only [strictNodeOk, decide_eq_true_eq, trimmedNE_iff, List.all_eq_true]
    refine ⟨⟨?_, ?_⟩, ⟨?_, ?_⟩, hfieldsOk⟩
    · show ¬ jsTrim ln.id = ""
      rw [ht1]; exact hne1
    · exact jsTrim_idem ln.id
    · show ¬ jsTrim ln.data.label = ""
      rw [ht2]; exact hne2
    · exact jsTrim_idem ln.data.label
  · show schema'.length = ln.data.schema.length
    have := (mapE_ok_forall hsch).length_eq
    rw [List.length_map] at this
    exact this.symm

theorem normalizeEdge_inv {idx : List (String × TableInfo)} {le : LooseEdge}
    {se : StrictEdge}
    (ht1 : jsTrim le.id = le.id) (ht2 : jsTrim le.source = le.source)
    (ht3 : jsTrim le.target = le.target)
    (hsh : ∀ s, le.sourceHandle = some s → jsTrim s = s)
    (hth : ∀ s, le.targetHandle = some s → jsTrim s = s)
    (h : normalizeEdge idx le = .ok se) : strictEdgeOk se = true := by
  unfold normalizeEdge at h
  obtain ⟨hne1, hne2, hne3, rfl⟩ := parseStrictEdge_inv h
  simp only [strictEdgeOk, decide_eq_true_eq, trimmedNE_iff]
  refine ⟨⟨?_, ?_⟩, ⟨?_, ?_⟩, ⟨?_, ?_⟩, ?_, ?_⟩
  · show ¬ jsTrim le.id = ""
    rw [ht1]; exact hne1
  · exact jsTrim_idem le.id
  · show ¬ jsTrim le.source = ""
    rw [ht2]; exact hne2
  · exact jsTrim_idem le.source
  · show ¬ jsTrim le.target = ""
    rw [ht3]; exact hne3
  · exact jsTrim_idem le.target
  · exact handleOk_forceSide (Or.inr rfl) hsh
  · exact handleOk_forceSide (Or.inl rfl) hth

theorem normalizeNode_id {n : StrictNode} (h : strictNodeOk n = true) :
    normalizeNode (looseOfStrictNode n) = .ok n := by
  show parseStrictNode
      { id := n.id, position := n.position, label := n.data.label,
        schema := (n.data.schema.map fieldToLoose).map toStrictField } = .ok n
  rw [map_fieldToLoose_toStrictField]
  exact parseStrictNode_id_candidate h

theorem normalizeEdge_id {idx : List (String × TableInfo)} {e : StrictEdge}
    (h : strictEdgeOk e = true) :
    normalizeEdge idx (looseOfStrictEdge e) = .ok e := by
  have h' := h
  simp only [strictEdgeOk, decide_eq_true_eq, trimmedNE_iff] at h'
  obtain ⟨_, _, _, hsh, hth⟩ := h'
  show parseStrictEdge
      { id := e.id, source := e.source, target := e.target,
        sourceHandle := forceSide e.sourceHandle "right",
        targetHandle := forceSide e.targetHandle "left",
        markerStart := e.markerStart, markerEnd := e.markerEnd,
        data := e.data } = .ok e
  rw [forceSide_fixed (Or.inr rfl) hsh, forceSide_fixed (Or.inl rfl) hth]
  exact parseStrictEdge_id_candidate h

/- ================= normalizeErd master lemmas ================= -/

theorem normalizeErd_inv {raw : RawInput} {g : StrictErd}
    (h : normalizeErd raw = .ok g) :
    ∃ loose edges nodes, parseLooseErd raw = .ok loose ∧
      mapE (normalizeEdge (buildTableIndex loose.nodes)) loose.edges = .ok edges ∧
      mapE normalizeNode loose.nodes = .ok nodes ∧
      parseStrictErd nodes edges = .ok g := by
  unfold normalizeErd at h
  obtain ⟨loose, hl, h2⟩ := except_bind_inv h
  obtain ⟨edges, he, h3⟩ := except_bind_inv h2
  obtain ⟨nodes, hn, h4⟩ := except_bind_inv h3
  exact ⟨loose, edges, nodes, hl, he, hn, h4⟩

theorem normalizeErd_ok_sound {raw : RawInput} {g : StrictErd}
    (h : normalizeErd raw = .ok g) :
    strictErdOk g = true ∧
      ∃ loose, parseLooseErd raw = .ok loose ∧
        List.Forall₂ (fun (ln : LooseNode) (sn : StrictNode) =>
          sn.data.schema.length = ln.data.schema.length) loose.nodes g.nodes := by
  obtain ⟨loose, edges, nodes, hl, he, hn, hfinal⟩ := normalizeErd_inv h
  obtain ⟨ns, es, hraw, hmn, hme⟩ := parseLooseErd_inv hl
  have hlnTrim : ∀ ln ∈ loose.nodes,
      jsTrim ln.id = ln.id ∧ jsTrim ln.data.label = ln.data.label ∧
        ∀ f ∈ ln.data.schema,
          jsTrim f.id = f.id ∧ jsTrim f.title = f.title ∧ jsTrim f.type' = f.type' := by
    intro ln hln
    obtain ⟨rn, _, hrn⟩ := mapE_mem_of_ok hmn hln
    exact parseLooseNode_inv hrn
  have hnodesOk : ∀ sn ∈ nodes, strictNodeOk sn = true := by
    intro sn hsn
    obtain ⟨ln, hln, hH⟩ := mapE_mem_of_ok hn hsn
    obtain ⟨t1, t2, t3⟩ := hlnTrim ln hln
    exact (normalizeNode_inv t1 t2 t3 hH).1
  have hedgesOk : ∀ se ∈ edges, strictEdgeOk se = true := by
    intro se hse
    obtain ⟨le, hle, hH⟩ := mapE_mem_of_ok he hse
    obtain ⟨re, _, hre⟩ := mapE_mem_of_ok hme hle
    obtain ⟨t1, t2, t3, t4, t5⟩ := parseLooseEdge_inv hre
    exact normalizeEdge_inv t1 t2 t3 t4 t5 hH
  rw [parseStrictErd_id hnodesOk hedgesOk] at hfinal
  injection hfinal with hg
  subst hg
  refine ⟨?_, loose, hl, ?_⟩
  · simp only [strictErdOk, decide_eq_true_eq, List.all_eq_true]
    exact ⟨hnodesOk, hedgesOk⟩
  · refine forall₂_imp_of_mem ?_ (mapE_ok_forall hn)
    intro ln sn hln hnorm
    obtain ⟨t1, t2, t3⟩ := hlnTrim ln hln
    exact (normalizeNode_inv t1 t2 t3 hnorm).2

theorem normalizeErd_strictToRaw_of_ok {g : StrictErd}
    (hok : strictErdOk g = true) : normalizeErd (strictToRaw g) = .ok g := by
  simp only [strictErdOk, decide_eq_true_eq, List.all_eq_true] at hok
  obtain ⟨hns, hes⟩ := hok
  have hl : parseLooseErd (strictToRaw g) =
      .ok { nodes := g.nodes.map looseOfStrictNode,
            edges := g.edges.map looseOfStrictEdge } := by
    show (do
        let nodes ← mapE parseLooseNode (g.nodes.map strictNodeToRaw)
        let edges ← mapE parseLooseEdge (g.edges.map strictEdgeToRaw)
        Except.ok ({ nodes := nodes, edges := edges } : LooseErd)) = _
    rw [mapE_map_comp (fun n hn => parseLooseNode_of_strict (hns n hn)),
        except_bind_ok,
        mapE_map_comp (fun e he => parseLooseEdge_of_strict (hes e he)),
        except_bind_ok]
  unfold normalizeErd
  rw [hl, except_bind_ok]
  show (do
      let edges ← mapE
        (normalizeEdge (buildTableIndex (g.nodes.map looseOfStrictNode)))
        (g.edges.map looseOfStrictEdge)
      let nodes ← mapE normalizeNode (g.nodes.map looseOfStrictNode)
      parseStrictErd nodes edges) = Except.ok g
  rw [mapE_map_id (fun e he => normalizeEdge_id (hes e he)), except_bind_ok,
      mapE_map_id (fun n hn => normalizeNode_id (hns n hn)), except_bind_ok]
  exact parseStrictErd_id hns hes

/- ================= JS object lemmas ================= -/

theorem jsObjLookup_mem {α : Type} {m : List (String × α)} {k : String} {v : α}
    (h : jsObjLookup m k = some v) : (k, v) ∈ m := by
  unfold jsObjLookup at h
  cases hf : m.find? (fun p => p.1 = k) with
  | none => rw [hf] at h; cases h
  | some p =>
      rw [hf] at h
      simp only [Option.map, Option.some.injEq] at h
      have hp := List.find?_some hf
      have hmem := List.mem_of_find?_eq_some hf
      simp only [decide_eq_true_eq] at hp
      cases p with
      | mk k' v' =>
          cases hp
          cases h
          exact hmem

/-- Every binding of `jsObjInsert m k v` is a binding of `m` or is `(k, v)`. -/
theorem jsObjInsert_subset {α : Type} {m : List (String × α)} {k : String}
    {v : α} {p : String × α} (h : p ∈ jsObjInsert m k v) :
    p ∈ m ∨ p = (k, v) := by
  induction m with
  | nil =>
      unfold jsObjInsert at h
      simp only [List.mem_singleton] at h
      exact Or.inr h
  | cons q rest ih =>
      unfold jsObjInsert at h
      by_cases hk : q.1 = k
      · rw [if_pos hk] at h
        rcases List.mem_cons.mp h with rfl | hmem
        · exact Or.inr (by rw [hk])
        · exact Or.inl (List.mem_cons_of_mem _ hmem)
      · rw [if_neg hk] at h
        rcases List.mem_cons.mp h with rfl | hmem
        · exact Or.inl (List.mem_cons_self _ _)
        · rcases ih hmem with hin | heq
          · exact Or.inl (List.mem_cons_of_mem _ hin)
          · exact Or.inr heq

theorem jsObjFromEntries_subset {α : Type} {l : List (String × α)}
    {p : String × α} (h : p ∈ jsObjFromEntries l) : p ∈ l := by
  unfold jsObjFromEntries at h
  suffices hgen : ∀ (acc : List (String × α)),
      p ∈ l.foldl (fun m kv => jsObjInsert m kv.1 kv.2) acc → p ∈ acc ∨ p ∈ l by
    rcases hgen [] h with habs | hin
    · cases habs
    · exact hin
  clear h
  induction l with
  | nil => intro acc h; exact Or.inl h
  | cons q rest ih =>
      intro acc h
      rw [List.foldl_cons] at h
      rcases ih _ h with hacc | hin
      · rcases jsObjInsert_subset hacc with hm | rfl
        · exact Or.inl hm
        · exact Or.inr (by simp)
      · exact Or.inr (List.mem_cons_of_mem _ hin)

/-- The keys of an association list, with multiplicity. -/
theorem jsObjInsert_keys_subset {α : Type} {m : List (String × α)} {k : String}
    {v : α} {p : String × α} (h : p ∈ jsObjInsert m k v) (hk : ¬ p.1 = k) :
    p ∈ m := by
  rcases jsObjInsert_subset h with hm | rfl
  · exact hm
  · exact absurd rfl hk

/-- In an association list built from entries keyed by `keyOf`, two bindings
with the same key hold the same value, because `jsObjInsert` never duplicates
a key. -/
theorem jsObjInsert_nodup_keys {α : Type} {m : List (String × α)} {k : String}
    {v : α} (h : (m.map (·.1)).Nodup) :
    ((jsObjInsert m k v).map (·.1)).Nodup := by
  induction m with
  | nil => simp [jsObjInsert]
  | cons q rest ih =>
      unfold jsObjInsert
      by_cases hk : q.1 = k
      · rw [if_pos hk]
        simpa using h
      · rw [if_neg hk]
        simp only [List.map_cons, List.nodup_cons] at h ⊢
        refine ⟨?_, ih h.2⟩
        intro hmem
        rw [List.mem_map] at hmem
        obtain ⟨p, hp, hpe⟩ := hmem
        rcases jsObjInsert_subset hp with hm | rfl
        · exact h.1 (List.mem_map.mpr ⟨p, hm, hpe⟩)
        · exact hk hpe.symm

theorem jsObjFromEntries_nodup_keys {α : Type} (l : List (String × α)) :
    ((jsObjFromEntries l).map (·.1)).Nodup := by
  unfold jsObjFromEntries
  suffices hgen : ∀ (acc : List (String × α)), ((acc.map (·.1)).Nodup) →
      ((l.foldl (fun m kv => jsObjInsert m kv.1 kv.2) acc).map (·.1)).Nodup from
    hgen [] (by simp)
  induction l with
  | nil => intro acc h; exact h
  | cons q rest ih =>
      intro acc h
      rw [List.foldl_cons]
      exact ih _ (jsObjInsert_nodup_keys h)

theorem mem_unique_of_nodup_keys {α : Type} {m : List (String × α)}
    (h : (m.map (·.1)).Nodup) {k : String} {v1 v2 : α}
    (h1 : (k, v1) ∈ m) (h2 : (k, v2) ∈ m) : v1 = v2 := by
  induction m with
  | nil => cases h1
  | cons q rest ih =>
      simp only [List.map_cons, List.nodup_cons] at h
      rcases List.mem_cons.mp h1 with rfl | hm1
      · rcases List.mem_cons.mp h2 with heq | hm2
        · cases heq; rfl
        · exact absurd (List.mem_map.mpr ⟨(k, v2), hm2, rfl⟩) h.1
      · rcases List.mem_cons.mp h2 with rfl | hm2
        · exact absurd (List.mem_map.mpr ⟨(k, v1), hm1, rfl⟩) h.1
        · exact ih h.2 hm1 hm2

/- ================= table index coherence ================= -/

theorem buildTableInfo_fields_mem {n : LooseNode} {fid : String} {f : LooseField}
    (h : jsObjLookup (buildTableInfo n).fields fid = some f) :
    f.id = fid ∧ (fid, f) ∈ (buildTableInfo n).fields := by
  have hmem := jsObjLookup_mem h
  have hsub := jsObjFromEntries_subset hmem
  rw [List.mem_map] at hsub
  obtain ⟨lf, _, heq⟩ := hsub
  cases heq
  exact ⟨rfl, hmem⟩

/-- In a keyed, duplicate-free association list, `f.id` is in the
filtered-and-projected id list exactly when the looked-up field itself
satisfies the filter. -/
theorem keyed_filter_contains_iff {F : List (String × LooseField)}
    (hkeys : ∀ p ∈ F, p.2.id = p.1) (hnd : (F.map (·.1)).Nodup)
    {fid : String} {f : LooseField} (hmem : (fid, f) ∈ F) (hfid : f.id = fid)
    (P : LooseField → Bool) :
    ((((F.map (·.2)).filter P).map (·.id)).contains f.id = true ↔ P f = true) := by
  constructor
  · intro hc
    rw [List.elem_iff, List.mem_map] at hc
    obtain ⟨f', hf', hid⟩ := hc
    rw [List.mem_filter] at hf'
    obtain ⟨hval, hP⟩ := hf'
    rw [List.mem_map] at hval
    obtain ⟨p, hp, hpe⟩ := hval
    have hk1 : p.1 = f.id := by
      rw [← hid, ← hpe]
      exact (hkeys p hp).symm
    have hpF : (f.id, f') ∈ F := by
      cases p with
      | mk k v =>
          cases hpe
          cases hk1
          exact hp
    have hfF : (f.id, f) ∈ F := by rw [hfid]; exact hmem
    have : f' = f := mem_unique_of_nodup_keys hnd hpF hfF
    rw [← this]
    exact hP
  · intro hP
    rw [List.elem_iff, List.mem_map]
    exact ⟨f, List.mem_filter.mpr ⟨List.mem_map.mpr ⟨(fid, f), hmem, rfl⟩, hP⟩, rfl⟩

theorem buildTableInfo_keys (n : LooseNode) :
    ∀ p ∈ jsObjFromEntries (n.data.schema.map (fun lf => (lf.id, lf))),
      p.2.id = p.1 := by
  intro p hp
  have := jsObjFromEntries_subset hp
  rw [List.mem_map] at this
  obtain ⟨lf, _, heq⟩ := this
  cases heq
  rfl

theorem buildTableInfo_pk_iff {n : LooseNode} {fid : String} {f : LooseField}
    (h : jsObjLookup (buildTableInfo n).fields fid = some f) :
    ((buildTableInfo n).pk.contains f.id = true ↔ f.key = some .PK) := by
  obtain ⟨hfid, hmem⟩ := buildTableInfo_fields_mem h
  have hmem' : (fid, f) ∈ jsObjFromEntries (n.data.schema.map (fun lf => (lf.id, lf))) :=
    hmem
  have base := keyed_filter_contains_iff (buildTableInfo_keys n)
    (jsObjFromEntries_nodup_keys _) hmem' hfid
    (fun lf => lf.key = some FieldKey.PK)
  refine Iff.trans ?_ (base.trans (by simp))
  rfl

theorem buildTableInfo_fk_iff {n : LooseNode} {fid : String} {f : LooseField}
    (h : jsObjLookup (buildTableInfo n).fields fid = some f) :
    ((buildTableInfo n).fk.contains f.id = true ↔ f.key = some .FK) := by
  obtain ⟨hfid, hmem⟩ := buildTableInfo_fields_mem h
  have hmem' : (fid, f) ∈ jsObjFromEntries (n.data.schema.map (fun lf => (lf.id, lf))) :=
    hmem
  have base := keyed_filter_contains_iff (buildTableInfo_keys n)
    (jsObjFromEntries_nodup_keys _) hmem' hfid
    (fun lf => lf.key = some FieldKey.FK)
  refine Iff.trans ?_ (base.trans (by simp))
  rfl

theorem buildTableIndex_mem {nodes : List LooseNode} {tid : String}
    {t : TableInfo} (h : jsObjLookup (buildTableIndex nodes) tid = some t) :
    ∃ n ∈ nodes, t = buildTableInfo n := by
  have hmem := jsObjLookup_mem h
  have hsub := jsObjFromEntries_subset hmem
  rw [List.mem_map] at hsub
  obtain ⟨n, hn, heq⟩ := hsub
  cases heq
  exact ⟨n, hn, rfl⟩

/-- `inferMarkerEnd` agrees with the spec's §4.2 cardinality table on any
table index built from parsed nodes, and is `many-end` whenever the target
node or field cannot be resolved. -/
theorem inferMarkerEnd_eq_table (nodes : List LooseNode) (targetId : String)
    (targetHandle : Option String) :
    inferMarkerEnd (buildTableIndex nodes) targetId targetHandle =
      match lookupTargetField (buildTableIndex nodes) targetId targetHandle with
      | none => .manyEnd
      | some f => specCardinalityTable f.key f.nullable := by
  unfold inferMarkerEnd lookupTargetField
  cases ht : jsObjLookup (buildTableIndex nodes) targetId with
  | none => rfl
  | some t =>
      obtain ⟨n, _, rfl⟩ := buildTableIndex_mem ht
      cases hs : stripSide targetHandle with
      | none => rfl
      | some fid =>
          by_cases hfe : fid = ""
          · simp [hfe]
          · simp only [hfe, if_false]
            cases hf : jsObjLookup (buildTableInfo n).fields fid with
            | none => rfl
            | some f =>
                have hpk := buildTableInfo_pk_iff hf
                have hfk := buildTableInfo_fk_iff hf
                cases hkey : f.key with
                | none =>
                    have h1 : f.id ∉ (buildTableInfo n).fk := by
                      intro hm
                      have hc := hfk.mp (List.elem_iff.mpr hm)
                      rw [hkey] at hc
                      cases hc
                    have h2 : f.id ∉ (buildTableInfo n).pk := by
                      intro hm
                      have hc := hpk.mp (List.elem_iff.mpr hm)
                      rw [hkey] at hc
                      cases hc
                    simp [h1, h2, specCardinalityTable, hkey]
                | some k =>
                    cases k with
                    | PK =>
                        have h1 : f.id ∉ (buildTableInfo n).fk := by
                          intro hm
                          have hc := hfk.mp (List.elem_iff.mpr hm)
                          rw [hkey] at hc
                          cases hc
                        have h2 : f.id ∈ (buildTableInfo n).pk :=
                          List.elem_iff.mp (hpk.mpr hkey)
                        simp [h1, h2, specCardinalityTable, hkey]
                    | FK =>
                        have h1 : f.id ∈ (buildTableInfo n).fk :=
                          List.elem_iff.mp (hfk.mpr hkey)
                        simp [h1, specCardinalityTable, hkey]

/- ================= remaining support lemmas ================= -/

theorem commitOpsOrKeep_of_error {doc : OGraph} {ops : List Op} {e : String}
    (h : applyOpsInMemory doc ops = .error e) : commitOpsOrKeep doc ops = doc := by
  unfold commitOpsOrKeep
  rw [h]

theorem stripSide_forceSide_side {f side : String} (hne : ¬ f = "")
    (h1 : strEndsWith f "-left" = false) (h2 : strEndsWith f "-right" = false)
    (hside : side = "left" ∨ side = "right") :
    stripSide (forceSide (some f) side) = some f := by
  rcases hside with rfl | rfl
  · have hval : forceSide (some f) "left" = some (f ++ "-left") := by
      simp only [forceSide]
      rw [if_neg hne, sideStrip_of_no_side h1 h2, String.append_assoc]
      rfl
    rw [hval]
    have hne2 : ¬ (f ++ "-left") = "" :=
      string_append_ne_empty_right f "-left" (by decide)
    simp only [stripSide]
    rw [if_neg hne2, sideStrip_left_append]
  · have hval : forceSide (some f) "right" = some (f ++ "-right") := by
      simp only [forceSide]
      rw [if_neg hne, sideStrip_of_no_side h1 h2, String.append_assoc]
      rfl
    rw [hval]
    have hne2 : ¬ (f ++ "-right") = "" :=
      string_append_ne_empty_right f "-right" (by decide)
    simp only [stripSide]
    rw [if_neg hne2, sideStrip_right_append]

theorem stripSide_keeps_unsided {h : String} (hne : ¬ h = "")
    (h1 : strEndsWith h "-left" = false) (h2 : strEndsWith h "-right" = false) :
    stripSide (some h) = some h := by
  simp only [stripSide]
  rw [if_neg hne, sideStrip_of_no_side h1 h2]

theorem stripSide_drops_left (x : String) :
    stripSide (some (x ++ "-left")) = some x := by
  have hne : ¬ (x ++ "-left") = "" :=
    string_append_ne_empty_right x "-left" (by decide)
  simp only [stripSide]
  rw [if_neg hne, sideStrip_left_append]

theorem stripSide_drops_right (x : String) :
    stripSide (some (x ++ "-right")) = some x := by
  have hne : ¬ (x ++ "-right") = "" :=
    string_append_ne_empty_right x "-right" (by decide)
  simp only [stripSide]
  rw [if_neg hne, sideStrip_right_append]

/- ================= claim theorems ================= -/

/-- C1 (counterexample): the claim says `normalizeErd` never throws for
recoverable shape issues such as an individual field missing some of its
properties; but on a node whose field lacks `type` (id and title present),
`normalizeErd` throws (`ZSchemaFieldLoose` requires `type` with `min(1)`). -/
theorem c1_counterexample :
    normalizeErd (.obj
      (some [{ id := some "users", type' := some "databaseSchema", position := none,
               data := some { label := some "Users",
                              schema := some [{ id := some "users-id", title := some "id",
                                                type' := none, key := none,
                                                nullable := none, note := none }] } }])
      (some [])) = .error "required" := by rfl

/-- C1 (amended): `normalizeErd` either throws or returns a graph satisfying
every strict invariant (nonempty trimmed ids/titles/types/labels, handles
correctly sided) — it never returns a partially-invalid graph; a non-object
root throws; an object missing both `nodes` and `edges` arrays does NOT throw
(both default to `[]`); and (per the counterexample) it also throws on
recoverable per-field shape issues, which are repaired upstream by the AI
service, not here. -/
theorem c1_normalizer_sound :
    (∀ raw g, normalizeErd raw = .ok g → strictErdOk g = true) ∧
    normalizeErd .notObject = .error "not_object" ∧
    normalizeErd (.obj none none) = .ok { nodes := [], edges := [] } := by
  refine ⟨fun raw g h => (normalizeErd_ok_sound h).1, rfl, rfl⟩

/-- C1 witness: the soundness half applied to a concrete accepted input. -/
theorem c1_witness :
    strictErdOk { nodes := [{ id := "users", position := { x := 0, y := 0 },
                              data := { label := "Users",
                                        schema := [{ id := "users-id", title := "id",
                                                     type' := "INT",
                                                     key := some .PK }] } }],
                  edges := [] } = true :=
  c1_normalizer_sound.1
    (.obj (some [{ id := some "users", type' := some "databaseSchema", position := none,
                   data := some { label := some "Users",
                                  schema := some [{ id := some "users-id",
                                                    title := some "id",
                                                    type' := some "INT", key := some "PK",
                                                    nullable := none, note := none }] } }])
      (some []))
    _ (by rfl)

/-- C2 (counterexample): the claim says every node of an accepted graph has
`schema.length >= 1`; but a node with no `data` is accepted and comes back
with an empty schema (`ZNodeStrict` defaults `schema` to `[]` and enforces no
minimum). -/
theorem c2_counterexample :
    normalizeErd (.obj
      (some [{ id := some "users", type' := some "databaseSchema", position := none,
               data := none }]) none) = .ok
      { nodes := [{ id := "users", position := { x := 0, y := 0 },
                    data := { label := "Table", schema := [] } }], edges := [] } := by rfl

/-- C2 (amended): for every accepted input, each returned node carries exactly
as many schema fields as the corresponding loose-parsed input node — possibly
zero; `schema.length >= 1` is not enforced by `normalizeErd`. -/
theorem c2_schema_length :
    ∀ raw loose g, parseLooseErd raw = .ok loose → normalizeErd raw = .ok g →
      List.Forall₂ (fun (ln : LooseNode) (sn : StrictNode) =>
        sn.data.schema.length = ln.data.schema.length) loose.nodes g.nodes := by
  intro raw loose g hl h
  obtain ⟨_, loose', hl', hfa⟩ := normalizeErd_ok_sound h
  rw [hl] at hl'
  injection hl' with hq
  rw [hq]
  exact hfa

/-- C2 witness: applied to a node with one field and a node with none. -/
theorem c2_witness :
    List.Forall₂ (fun (ln : LooseNode) (sn : StrictNode) =>
        sn.data.schema.length = ln.data.schema.length)
      [{ id := "a", position := { x := 0, y := 0 },
         data := { label := "A",
                   schema := [{ id := "a-x", title := "x", type' := "INT",
                                key := none, nullable := none, note := none }] } },
       { id := "b", position := { x := 0, y := 0 },
         data := { label := "Table", schema := [] } }]
      [{ id := "a", position := { x := 0, y := 0 },
         data := { label := "A",
                   schema := [{ id := "a-x", title := "x", type' := "INT",
                                key := none }] } },
       { id := "b", position := { x := 0, y := 0 },
         data := { label := "Table", schema := [] } }] :=
  c2_schema_length
    (.obj (some [{ id := some "a", type' := some "databaseSchema", position := none,
                   data := some { label := some "A",
                                  schema := some [{ id := some "a-x", title := some "x",
                                                    type' := some "INT", key := none,
                                                    nullable := none, note := none }] } },
                 { id := some "b", type' := some "databaseSchema", position := none,
                   data := none }]) none)
    _ _ (by rfl) (by rfl)

/-- C3 (counterexample): the claim says `normalizeErd` does not reject a field
lacking `id` and fills it with a placeholder; but `normalizeErd` throws on
such a field (`ZSchemaFieldLoose` requires `id` with `min(1)`). -/
theorem c3_counterexample :
    normalizeErd (.obj
      (some [{ id := some "users", type' := some "databaseSchema", position := none,
               data := some { label := some "Users",
                              schema := some [{ id := none, title := some "name",
                                                type' := some "VARCHAR(255)", key := none,
                                                nullable := none, note := none }] } }])
      (some [])) = .error "required" := by rfl

/-- C3 (amended): the synthetic placeholders `field_<nodeIdx>_<fieldIdx>`,
`Field_<fieldIdx+1>` and `VARCHAR(255)` are applied by the AI service's
per-field cleaning (`cleanSchemaField`, inside `cleanAndValidateDiagramData`)
before any zod validation; `normalizeErd` itself rejects a field lacking
`id`, `title` or `type` (its loose field parse errors). -/
theorem c3_placeholders :
    (∀ i j f, f.id = none →
      (cleanSchemaField i j f).id = some ("field_" ++ toString i ++ "_" ++ toString j)) ∧
    (∀ i j f, f.title = none →
      (cleanSchemaField i j f).title = some ("Field_" ++ toString (j + 1))) ∧
    (∀ i j f, f.type' = none →
      (cleanSchemaField i j f).type' = some "VARCHAR(255)") ∧
    (∀ f : RawField, f.id = none → parseLooseField f = .error "required") := by
  refine ⟨?_, ?_, ?_, ?_⟩
  · intro i j f h
    simp [cleanSchemaField, h]
  · intro i j f h
    simp [cleanSchemaField, h]
  · intro i j f h
    simp [cleanSchemaField, h]
  · intro f h
    unfold parseLooseField
    rw [h]
    rfl

/-- C3 witness: the placeholders at node index 2, field index 5, and the
rejection of a concrete id-less field. -/
theorem c3_witness :
    (cleanSchemaField 2 5 { id := none, title := none, type' := none,
                            key := some "PRIMARY", nullable := none,
                            note := none }).id = some "field_2_5" ∧
    (cleanSchemaField 2 5 { id := none, title := none, type' := none,
                            key := some "PRIMARY", nullable := none,
                            note := none }).title = some "Field_6" ∧
    (cleanSchemaField 2 5 { id := none, title := none, type' := none,
                            key := some "PRIMARY", nullable := none,
                            note := none }).type' = some "VARCHAR(255)" ∧
    parseLooseField { id := none, title := some "name", type' := some "INT",
                      key := none, nullable := none, note := none } =
      .error "required" := by
  refine ⟨?_, ?_, ?_, c3_placeholders.2.2.2 _ (by rfl)⟩
  · exact (c3_placeholders.1 2 5 _ (by rfl)).trans (by rfl)
  · exact (c3_placeholders.2.1 2 5 _ (by rfl)).trans (by rfl)
  · exact c3_placeholders.2.2.1 2 5 _ (by rfl)

/-- C4: on any table index built by `normalizeErd`, `inferMarkerEnd` is
exactly the spec's §4.2 table applied to the resolved target field's
`(key, nullable)` pair — FK: zero-to-many/many, PK: zero-to-one/one, no key:
zero-to-many/many, switching on `nullable === true` — and `many-end` whenever
the target node or field cannot be found. -/
theorem c4_cardinality_table :
    ∀ (nodes : List LooseNode) (targetId : String) (targetHandle : Option String),
      inferMarkerEnd (buildTableIndex nodes) targetId targetHandle =
        match lookupTargetField (buildTableIndex nodes) targetId targetHandle with
        | none => .manyEnd
        | some f => specCardinalityTable f.key f.nullable :=
  inferMarkerEnd_eq_table

/-- C5: if any operation of a batch errors, the caller's diagram is left
completely unmodified — the committed state equals the original (the engine
works on a deep clone and the error aborts the whole batch). -/
theorem c5_ops_atomicity :
    ∀ (doc : OGraph) (ops : List Op) (e : String),
      applyOpsInMemory doc ops = .error e → commitOpsOrKeep doc ops = doc := by
  intro doc ops e h
  exact commitOpsOrKeep_of_error h

/-- C5 witness: the spec's scenario — a valid `add_field` followed by a
`delete_field` of a missing field errors, and commits nothing. -/
theorem c5_witness :
    applyOpsInMemory
      { nodes := [{ id := "users",
                    data := some { label := "Users",
                                   schema := [{ id := "users-id", title := "id",
                                                type' := "INT", key := .PK,
                                                nullable := true, dflt := none }] } }],
        edges := [] }
      [.add_field "users" "users-email" "email" "VARCHAR(255)" (some "NONE"),
       .delete_field "users" "users-missing"] = .error "Field not found" ∧
    commitOpsOrKeep
      { nodes := [{ id := "users",
                    data := some { label := "Users",
                                   schema := [{ id := "users-id", title := "id",
                                                type' := "INT", key := .PK,
                                                nullable := true, dflt := none }] } }],
        edges := [] }
      [.add_field "users" "users-email" "email" "VARCHAR(255)" (some "NONE"),
       .delete_field "users" "users-missing"] =
      { nodes := [{ id := "users",
                    data := some { label := "Users",
                                   schema := [{ id := "users-id", title := "id",
                                                type' := "INT", key := .PK,
                                                nullable := true, dflt := none }] } }],
        edges := [] } :=
  ⟨by rfl, c5_ops_atomicity _ _ "Field not found" (by rfl)⟩

/-- C6: of two conditional updates issued against the same observed version,
the first succeeds, increments the version by exactly one and installs its
payload; the second (now stale) returns the conflict signal `none`, writes
nothing, and the final state equals the first writer's payload. -/
theorem c6_conflict_rejection :
    ∀ (d : StoredDiagram) (n1 : List StrictNode) (e1 : List StrictEdge)
      (n2 : List StrictNode) (e2 : List StrictEdge),
      (conditionalUpdate d d.version n1 e1).1 =
        some (conditionalUpdate d d.version n1 e1).2 ∧
      (conditionalUpdate d d.version n1 e1).2.version = d.version + 1 ∧
      (conditionalUpdate d d.version n1 e1).2.nodes = n1 ∧
      (conditionalUpdate d d.version n1 e1).2.edges = e1 ∧
      (conditionalUpdate (conditionalUpdate d d.version n1 e1).2 d.version n2 e2).1 =
        none ∧
      (conditionalUpdate (conditionalUpdate d d.version n1 e1).2 d.version n2 e2).2 =
        (conditionalUpdate d d.version n1 e1).2 := by
  intro d n1 e1 n2 e2
  simp [conditionalUpdate]

set_option maxRecDepth 8000 in
/-- C7: for the spec's two-table graph (`users{id PK}`, `posts{id PK,
user_id FK}`, edge `users-id-right → posts-user_id-left`) and a renderer with
identity quoting, the compiled SQL contains the
`FOREIGN KEY (user_id) REFERENCES users (id)` constraint (on the `posts`
CREATE TABLE) and, with `addFkIndexes` enabled (the default), the
`posts_user_id_idx` CREATE INDEX on that column. -/
theorem c7_sql_fk_inference :
    strContains
      (erdToSql
        { nodes := [
            { id := "users", label := "users",
              schema := [{ id := "users-id", title := "id", type' := "INT",
                           key := some .PK }] },
            { id := "posts", label := "posts",
              schema := [{ id := "posts-id", title := "id", type' := "INT",
                           key := some .PK },
                         { id := "posts-user_id", title := "user_id",
                           type' := "INT", key := some .FK }] }],
          edges := [
            { id := "e1", source := "users", target := "posts",
              sourceHandle := some "users-id-right",
              targetHandle := some "posts-user_id-left" }] }
        { dialect := plainRenderer })
      "FOREIGN KEY (user_id) REFERENCES users (id)" = true ∧
    strContains
      (erdToSql
        { nodes := [
            { id := "users", label := "users",
              schema := [{ id := "users-id", title := "id", type' := "INT",
                           key := some .PK }] },
            { id := "posts", label := "posts",
              schema := [{ id := "posts-id", title := "id", type' := "INT",
                           key := some .PK },
                         { id := "posts-user_id", title := "user_id",
                           type' := "INT", key := some .FK }] }],
          edges := [
            { id := "e1", source := "users", target := "posts",
              sourceHandle := some "users-id-right",
              targetHandle := some "posts-user_id-left" }] }
        { dialect := plainRenderer })
      "CREATE INDEX IF NOT EXISTS posts_user_id_idx ON posts (user_id);" = true :=
  ⟨by rfl, by rfl⟩

/-- C8 (counterexample): the round-trip fails for a field id that itself ends
in a side marker: `forceSide` first strips `-left` from `users-left`, so the
strip of the forced handle returns `users`, not the original id. -/
theorem c8_counterexample :
    stripSide (forceSide (some "users-left") "right") ≠ some "users-left" := by
  decide

/-- C8 (amended): for every nonempty field id `f` that does not already end in
`-left` or `-right`, and each side, `stripSide (forceSide f side) = f`. -/
theorem c8_roundtrip :
    ∀ (f side : String), ¬ f = "" →
      strEndsWith f "-left" = false → strEndsWith f "-right" = false →
      (side = "left" ∨ side = "right") →
      stripSide (forceSide (some f) side) = some f := by
  intro f side hne h1 h2 hside
  exact stripSide_forceSide_side hne h1 h2 hside

/-- C8 witness: the round-trip at `users-id` / `right`. -/
theorem c8_witness :
    stripSide (forceSide (some "users-id") "right") = some "users-id" :=
  c8_roundtrip "users-id" "right" (by decide) (by decide) (by decide)
    (Or.inr rfl)

/-- C9 (counterexample): the claim says `stripSide` removes the side suffix
case-insensitively; but the regex has no `i` flag: `f-LEFT` is returned
unchanged instead of `f`. -/
theorem c9_counterexample :
    stripSide (some "f-LEFT") = some "f-LEFT" ∧ ¬ some "f-LEFT" = some "f" := by
  decide

/-- C9 (amended): `stripSide` removes one trailing lowercase `-left`/`-right`;
a handle not ending in a lowercase side marker (e.g. `-LEFT`, `-Right`) is
returned unchanged; `undefined` maps to `undefined` (and the falsy `""` also
maps to `undefined`). -/
theorem c9_stripSide_behaviour :
    stripSide none = none ∧ stripSide (some "") = none ∧
    (∀ x : String, stripSide (some (x ++ "-left")) = some x) ∧
    (∀ x : String, stripSide (some (x ++ "-right")) = some x) ∧
    (∀ h : String, ¬ h = "" → strEndsWith h "-left" = false →
      strEndsWith h "-right" = false → stripSide (some h) = some h) := by
  refine ⟨rfl, rfl, stripSide_drops_left, stripSide_drops_right, ?_⟩
  intro h hne h1 h2
  exact stripSide_keeps_unsided hne h1 h2

/-- C9 witness: the unchanged-handle part applied to the uppercase `f-LEFT`. -/
theorem c9_witness : stripSide (some "f-LEFT") = some "f-LEFT" :=
  c9_stripSide_behaviour.2.2.2.2 "f-LEFT" (by decide) (by decide) (by decide)

/-- C10: `normalizeErd` is idempotent — when it accepts an input, re-reading
its strict output as JSON and normalizing again succeeds and returns the very
same graph. -/
theorem c10_idempotent :
    ∀ raw g, normalizeErd raw = .ok g →
      normalizeErd (strictToRaw g) = .ok g := by
  intro raw g h
  exact normalizeErd_strictToRaw_of_ok (normalizeErd_ok_sound h).1

/-- C10 witness: idempotence at the spec's end-to-end Author example. -/
theorem c10_witness :
    normalizeErd (strictToRaw
      { nodes := [{ id := "1", position := { x := 0, y := 0 },
                    data := { label := "Author",
                              schema := [{ id := "author-id", title := "id",
                                           type' := "INT", key := some .PK }] } }],
        edges := [] }) = .ok
      { nodes := [{ id := "1", position := { x := 0, y := 0 },
                    data := { label := "Author",
                              schema := [{ id := "author-id", title := "id",
                                           type' := "INT", key := some .PK }] } }],
        edges := [] } :=
  c10_idempotent
    (.obj (some [{ id := some "1", type' := some "databaseSchema", position := none,
                   data := some { label := some "Author",
                                  schema := some [{ id := some "author-id",
                                                    title := some "id",
                                                    type' := some "INT",
                                                    key := some "PK",
                                                    nullable := none, note := none }] } }])
      (some []))
    _ (by rfl)

end Autodia
